import Mathlib

/-!
Verification development for the MoonShot interpreter (Go).

This file gives a shallow embedding, in Lean 4, of the parts of the MoonShot
source that the checked claims are about:

* the runtime value model (value.go) and the environment model (the
  Environment source file), with the environment heap made explicit: Go
  environments are mutable objects linked by parent pointers, so the
  embedding carries a store of frames addressed by natural numbers and
  threads it through evaluation;
* the tree-walking evaluator (the evaluator source file), written with an
  explicit fuel parameter: every evaluator function consumes one unit of
  fuel on entry, and a result of none means the fuel ran out (the source
  can loop forever, e.g. in a while statement);
* the builtin collection/string/Result/Option methods (the builtins source
  file);
* error enrichment (errors.go);
* module path resolution (module.go);
* the structural type checker (checker.go) and the type model (the types
  source file);
* the Pratt expression parser (parser.go), the token model (token.go), and
  the lexer (whose source sits in this snapshot appended to
  src/examples/fibonacci.moon, after the example program).

Modelling conventions:

* Go int64 arithmetic is modelled as Int with an explicit wrap into
  [-2^63, 2^63), applied exactly where the Go code computes on int64;
* Go maps with string keys are modelled as association lists whose update
  operation overwrites the first matching key (lookup-equivalent to the Go
  map); rendering sorts keys exactly as the source does;
* Go float64 values and the float branches of the evaluator and checker
  are outside the embedding (floating point is not shallowly embeddable);
  no claim mentions floats and no theorem below touches a float path;
* a nil Go *FunctionValue / nil Expression child produced on a parse error
  path is modelled by propagating none instead of building a node with a
  nil child; the difference is observable only on malformed inputs, which
  no theorem below exercises.
-/

namespace MoonShot

/-- The int64 range bound 2^63, as an explicit numeral. -/
def int64Half : Int := 9223372036854775808

/-- The int64 modulus 2^64, as an explicit numeral. -/
def int64Size : Int := 18446744073709551616

/-- Wrap an unbounded integer into the int64 range, mirroring Go's
two's-complement int64 arithmetic. -/
def wrap64 (x : Int) : Int :=
  (x + int64Half) % int64Size - int64Half

/-- Go int64 addition. -/
def i64add (a b : Int) : Int := wrap64 (a + b)

/-- Go int64 subtraction. -/
def i64sub (a b : Int) : Int := wrap64 (a - b)

/-- Go int64 multiplication. -/
def i64mul (a b : Int) : Int := wrap64 (a * b)

/-- Go int64 quotient: truncated division, wrapped (the wrap matters only
for minInt64 / -1, which Go defines to overflow back to minInt64). -/
def i64div (a b : Int) : Int := wrap64 (Int.tdiv a b)

/-- Go int64 remainder: truncated remainder (sign of the dividend). -/
def i64mod (a b : Int) : Int := wrap64 (Int.tmod a b)

/-- TypeAnn mirrors ast.go's TypeAnnotation node: a type name plus
bracketed type parameters, e.g. Mutable[Integer]. -/
inductive TypeAnn : Type where
  | mk (name : String) (params : List TypeAnn)

/-- Name of a TypeAnn. -/
def TypeAnn.name : TypeAnn → String
  | .mk n _ => n

/-- Type parameters of a TypeAnn. -/
def TypeAnn.params : TypeAnn → List TypeAnn
  | .mk _ ps => ps

mutual

/-- Stmt mirrors the Statement variants of ast.go that the claims need.
MatchExpression-as-statement does not exist in the source (match is an
expression); the import statement is carried in the AST but its evaluation
(file I/O) is settled with the pure resolution functions below. -/
inductive Stmt : Type where
  | defStmt (name : String) (typeHint : Option TypeAnn) (value : Expr)
  | returnStmt (value : Option Expr)
  | exprStmt (e : Expr)
  | blockStmt (stmts : List Stmt)
  | funcStmt (name : String) (params : List (String × Option TypeAnn))
      (retType : Option TypeAnn) (body : List Stmt)
  | whileStmt (cond : Expr) (body : List Stmt)
  | forStmt (varName : String) (iterable : Expr) (body : List Stmt)
  | breakStmt
  | continueStmt
  | structStmt (name : String) (fields : List (String × Option TypeAnn))
  | extendStmt (typeName : String)
      (methods : List (String × List (String × Option TypeAnn) × Option TypeAnn × List Stmt))
  | importStmt (path : List String)

/-- Expr mirrors the Expression variants of ast.go that the claims need.
Integer and string literals carry the token literal alongside the parsed
value, as the Go nodes carry their Token; MatchExpression is omitted (no
claim exercises pattern matching). -/
inductive Expr : Type where
  | intLit (value : Int) (lit : String)
  | strLit (value : String)
  | boolLit (value : Bool)
  | ident (name : String)
  | prefixE (op : String) (right : Expr)
  | infixE (left : Expr) (op : String) (right : Expr)
  | assignE (name : String) (value : Expr)
  | ifE (cond : Expr) (cons : List Stmt) (alt : Option (List Stmt))
  | funcLit (params : List String) (body : Expr)
  | callE (func : Expr) (args : List Expr)
  | memberE (obj : Expr) (member : String)
  | indexE (left : Expr) (idx : Expr)
  | listLit (elems : List Expr)
  | mapLit (pairs : List (Expr × Expr))
  | structLit (name : String) (fields : List (String × Expr))
  | withE (obj : Expr) (updates : List (String × Expr))
  | optionE (isSome : Bool) (value : Option Expr)
  | resultE (isOk : Bool) (value : Expr)
  | mutableE (typeHint : Option TypeAnn) (value : Expr)

end

/-- Value mirrors value.go's tagged union of runtime values.  FunctionValue
and ModuleValue hold environment addresses into the frame store (Go holds
pointers).  A ResultValue holds the fields of its ErrorValue inline (Go
holds a *ErrorValue, always set when IsOk is false).  FloatValue is outside
the embedding. -/
inductive Value : Type where
  | intV (n : Int)
  | strV (s : String)
  | boolV (b : Bool)
  | nullV
  | listV (elems : List Value)
  | mapV (pairs : List (String × Value))
  | structDefV (name : String) (fieldNames : List String)
  | structV (defName : String) (defFieldNames : List String) (fields : List (String × Value))
  | funcV (name : String) (params : List String) (body : List Stmt)
      (lambdaBody : Option Expr) (envRef : Nat) (isLambda : Bool)
  | builtinV (name : String)
  | optionV (isSome : Bool) (val : Value)
  | resultV (isOk : Bool) (val : Value) (errMethod errInput errMessage : String)
  | mutableV (val : Value)
  | errorV (method input message : String)
  | returnV (val : Value)
  | breakV
  | continueV
  | moduleV (name : String) (envRef : Nat)

/-- An environment frame: bindings plus parent address, mirroring the Go
Environment struct (store map plus parent pointer). -/
structure Frame : Type where
  bindings : List (String × Value)
  parent : Option Nat

/-- Evaluator state: the environment heap together with the registries an
Evaluator instance owns (structs, extensions, modules) and the name of the
currently executing function. -/
structure St : Type where
  store : List Frame
  structs : List (String × List String)
  extensions : List (String × List (String × Value))
  modules : List (String × Value)
  currentFn : String

/-- Set a key in an association list, overwriting the first occurrence
(lookup-equivalent to a Go map assignment). -/
def assocSet {α : Type} : List (String × α) → String → α → List (String × α)
  | [], n, v => [(n, v)]
  | (k, w) :: rest, n, v =>
    if k = n then (n, v) :: rest else (k, w) :: assocSet rest n v

/-- Lookup in an association list (Go map read). -/
def assocGet {α : Type} : List (String × α) → String → Option α
  | [], _ => none
  | (k, w) :: rest, n => if k = n then some w else assocGet rest n

/-- Environment.Get: look in the frame's own store, then in the parent
chain.  The fuel bounds the chain walk; callers pass the store length,
which bounds any parent chain built by the allocation functions below. -/
def envGetAux (store : List Frame) : Nat → Nat → String → Option Value
  | 0, _, _ => none
  | fuel + 1, addr, name =>
    match store.get? addr with
    | none => none
    | some fr =>
      match assocGet fr.bindings name with
      | some v => some v
      | none =>
        match fr.parent with
        | some p => envGetAux store fuel p name
        | none => none

/-- Environment.Get on an environment address. -/
def envGet (store : List Frame) (addr : Nat) (name : String) : Option Value :=
  envGetAux store (store.length + 1) addr name

/-- Environment.Set: define (or overwrite) a binding in the frame at the
given address. -/
def envSet (store : List Frame) (addr : Nat) (name : String) (v : Value) : List Frame :=
  match store.get? addr with
  | none => store
  | some fr => store.set addr { fr with bindings := assocSet fr.bindings name v }

/-- NewEnvironment: allocate a fresh frame with no parent; returns its
address and the extended store. -/
def newEnvironment (store : List Frame) : Nat × List Frame :=
  (store.length, store ++ [⟨[], none⟩])

/-- NewEnclosedEnvironment: allocate a child frame of the given parent. -/
def newEnclosedEnvironment (store : List Frame) (parent : Nat) : Nat × List Frame :=
  (store.length, store ++ [⟨[], some parent⟩])

/-- UnwrapValue from value.go: strip one Mutable wrapper. -/
def UnwrapValue : Value → Value
  | .mutableV v => v
  | v => v

/-- Type() strings of value.go.  A struct value's type is its definition's
name. -/
def valueType : Value → String
  | .intV _ => "Integer"
  | .strV _ => "String"
  | .boolV _ => "Boolean"
  | .nullV => "Null"
  | .listV _ => "List"
  | .mapV _ => "Map"
  | .structDefV _ _ => "StructDef"
  | .structV defName _ _ => defName
  | .funcV _ _ _ _ _ _ => "Function"
  | .builtinV _ => "Builtin"
  | .optionV _ _ => "Option"
  | .resultV _ _ _ _ _ => "Result"
  | .mutableV _ => "Mutable"
  | .errorV _ _ _ => "Error"
  | .returnV _ => "Return"
  | .breakV => "Break"
  | .continueV => "Continue"
  | .moduleV _ _ => "Module"

/-- IsTruthy from value.go. -/
def IsTruthy : Value → Bool
  | .boolV b => b
  | .nullV => false
  | .intV n => n != 0
  | .strV s => s != ""
  | .listV elems => elems.length > 0
  | .optionV isSome _ => isSome
  | .mutableV v => IsTruthy v
  | _ => true

/-- valuesEqual from the builtins source file: value equality for the
primitive tags after unwrapping Mutable; false across different tags. -/
def valuesEqual (a b : Value) : Bool :=
  match UnwrapValue a, UnwrapValue b with
  | .intV x, .intV y => x == y
  | .strV x, .strV y => x == y
  | .boolV x, .boolV y => x == y
  | .nullV, .nullV => true
  | _, _ => false

/-- isError from the evaluator source file. -/
def isError : Value → Bool
  | .errorV _ _ _ => true
  | _ => false

/-- Insertion of a string into a lexicographically sorted list; used to
mirror sort.Strings in the rendering code. -/
def sortedInsert (s : String) : List String → List String
  | [] => [s]
  | t :: rest => if s < t then s :: t :: rest else t :: sortedInsert s rest

/-- sort.Strings: lexicographic string sort (insertion sort). -/
def sortStrings : List String → List String
  | [] => []
  | s :: rest => sortedInsert s (sortStrings rest)

/-- Insertion of a (key, rendered) pair into a list sorted by key. -/
def sortedInsertPair (p : String × String) : List (String × String) → List (String × String)
  | [] => [p]
  | q :: rest => if p.1 < q.1 then p :: q :: rest else q :: sortedInsertPair p rest

/-- Sort (key, rendered) pairs by key, mirroring the key sort the String()
methods perform before joining. -/
def sortPairsByKey : List (String × String) → List (String × String)
  | [] => []
  | p :: rest => sortedInsertPair p (sortPairsByKey rest)

/-- strings.Join with ", ". -/
def joinComma (parts : List String) : String :=
  String.intercalate ", " parts

/-- ErrorValue.String from value.go: the three-line enriched format when a
method is recorded, otherwise the bare message. -/
def errorValueString (method input message : String) : String :=
  if method != "" then
    "Error in " ++ method ++ "\nInput: " ++ input ++ "\nReason: " ++ message
  else
    message

mutual

/-- String() methods of value.go.  Map keys are rendered with Go's %q verb,
modelled here as plain double quoting (exact for keys without characters
that %q escapes); map and struct fields are key-sorted exactly as the
source sorts them.  An Error result renders through its ErrorValue. -/
def valueString : Value → String
  | .intV n => toString n
  | .strV s => s
  | .boolV b => if b then "true" else "false"
  | .nullV => "null"
  | .listV elems => "[" ++ joinComma (valueStringList elems) ++ "]"
  | .mapV pairs =>
    "\x7b" ++
      joinComma ((sortPairsByKey (valueStringPairs pairs)).map
        (fun kv => "\"" ++ kv.1 ++ "\": " ++ kv.2)) ++ "\x7d"
  | .structDefV name _ => "<struct " ++ name ++ ">"
  | .structV defName _ fields =>
    defName ++ "\x7b" ++
      joinComma ((sortPairsByKey (valueStringPairs fields)).map
        (fun kv => kv.1 ++ ": " ++ kv.2)) ++ "\x7d"
  | .funcV name _ _ _ _ _ =>
    if name != "" then "<function " ++ name ++ ">" else "<lambda>"
  | .builtinV name => "<builtin " ++ name ++ ">"
  | .optionV isSome v =>
    if isSome then "Some(" ++ valueString v ++ ")" else "None"
  | .resultV isOk v errMethod errInput errMessage =>
    if isOk then "Ok(" ++ valueString v ++ ")"
    else "Error(" ++ errorValueString errMethod errInput errMessage ++ ")"
  | .mutableV v => valueString v
  | .errorV method input message => errorValueString method input message
  | .returnV v => valueString v
  | .breakV => "break"
  | .continueV => "continue"
  | .moduleV name _ => "<module " ++ name ++ ">"
termination_by structural v => v

/-- Rendering of each element of a list of values. -/
def valueStringList : List Value → List String
  | [] => []
  | v :: rest => valueString v :: valueStringList rest
termination_by structural l => l

/-- Rendering of each value of a (key, value) list, keeping the keys. -/
def valueStringPairs : List (String × Value) → List (String × String)
  | [] => []
  | (k, v) :: rest => (k, valueString v) :: valueStringPairs rest
termination_by structural l => l

end

/-- EnrichError from errors.go: adds method/input context to an error value
but never overwrites a field that is already set (the first enrichment
wins).  The Go input parameter is a Value whose String() is recorded; nil
input (never passed in the source) is modelled by none. -/
def EnrichError (err : Value) (method : String) (input : Option Value) : Value :=
  match err with
  | .errorV m i msg =>
    let m1 := if m = "" then method else m
    let i1 :=
      match input with
      | some v => if i = "" then valueString v else i
      | none => i
    .errorV m1 i1 msg
  | v => v

/-- FormatError from errors.go: the display format, which includes the
Input line only when the input is nonempty. -/
def FormatError (method input message : String) : String :=
  if method != "" then
    "Error in " ++ method ++
      (if input != "" then "\nInput: " ++ input else "") ++
      "\nReason: " ++ message
  else
    message

/-- ListValue.Append from value.go: allocate a fresh element array of
length len+1, copy the receiver's elements, and put v last — i.e. the list
with v appended; the receiver is untouched. -/
def ListValue.Append (elems : List Value) (v : Value) : List Value :=
  elems ++ [v]

/-- listLength from the builtins source file. -/
def listLength (elems : List Value) : Value :=
  .intV (Int.ofNat elems.length)

/-- listGet from the builtins source file: out-of-range indices give None,
in-range give Some of the element. -/
def listGet (elems : List Value) (index : Int) : Value :=
  if index < 0 || index ≥ Int.ofNat elems.length then
    .optionV false .nullV
  else
    .optionV true (elems.getD index.toNat .nullV)

/-- listAppend from the builtins source file (delegates to
ListValue.Append). -/
def listAppend (elems : List Value) (v : Value) : Value :=
  .listV (ListValue.Append elems v)

/-- listContains from the builtins source file. -/
def listContains (elems : List Value) (v : Value) : Bool :=
  elems.any (fun e => valuesEqual e v)

/-- mapGet from the builtins source file: absent keys give None. -/
def mapGet (pairs : List (String × Value)) (key : String) : Value :=
  match assocGet pairs key with
  | some v => .optionV true v
  | none => .optionV false .nullV

/-- mapInsert from the builtins source file: copy all pairs, then set the
key (a fresh map; the receiver is untouched). -/
def mapInsert (pairs : List (String × Value)) (key : String) (v : Value) : Value :=
  .mapV (assocSet pairs key v)

/-- mapRemove from the builtins source file: copy all pairs except the
key. -/
def mapRemove (pairs : List (String × Value)) (key : String) : Value :=
  .mapV (pairs.filter (fun kv => kv.1 ≠ key))

/-- mapKeys from the builtins source file. -/
def mapKeys (pairs : List (String × Value)) : Value :=
  .listV (pairs.map (fun kv => .strV kv.1))

/-- mapValues from the builtins source file. -/
def mapValues (pairs : List (String × Value)) : Value :=
  .listV (pairs.map (fun kv => kv.2))

/-- mapContains from the builtins source file. -/
def mapContains (pairs : List (String × Value)) (key : String) : Bool :=
  (assocGet pairs key).isSome

/-- stringLength from the builtins source file: Go len() counts UTF-8
bytes. -/
def stringLength (s : String) : Value :=
  .intV (Int.ofNat s.utf8ByteSize)

/-- stringSplit from the builtins source file, for a nonempty separator
(strings.Split with an empty separator splits into UTF-8 runes, a case no
claim exercises). -/
def stringSplit (s sep : String) : Value :=
  .listV ((s.splitOn sep).map (fun part => .strV part))

/-- Substring test over character lists. -/
def charListHasPrefix : List Char → List Char → Bool
  | _, [] => true
  | [], _ :: _ => false
  | c :: cs, d :: ds => c = d && charListHasPrefix cs ds

/-- Substring occurrence test over character lists. -/
def charListContainsSub (hay needle : List Char) : Bool :=
  charListHasPrefix hay needle ||
    match hay with
    | [] => false
    | _ :: rest => charListContainsSub rest needle

/-- stringContains from the builtins source file (strings.Contains). -/
def stringContains (s substr : String) : Bool :=
  charListContainsSub s.toList substr.toList

/-- stringTrim from the builtins source file (strings.TrimSpace). -/
def stringTrim (s : String) : Value :=
  .strV s.trim

/-- stringUpper from the builtins source file (strings.ToUpper). -/
def stringUpper (s : String) : Value :=
  .strV s.toUpper

/-- stringLower from the builtins source file (strings.ToLower). -/
def stringLower (s : String) : Value :=
  .strV s.toLower

/-- filepath.Join of two clean, nonempty relative path components on the
host separator "/". -/
def filepathJoin2 (a b : String) : String :=
  a ++ "/" ++ b

/-- strings.Split with the single-character separator ".", modelled over
the character list. -/
def splitOnDotAux : List Char → List Char → List String
  | [], acc => [String.mk acc.reverse]
  | c :: rest, acc =>
    if c = '.' then String.mk acc.reverse :: splitOnDotAux rest []
    else splitOnDotAux rest (c :: acc)

/-- strings.Split(s, "."). -/
def splitOnDot (s : String) : List String :=
  splitOnDotAux s.toList []

/-- resolvePath from module.go: split the module path on dots, join the
parts with the filesystem separator, append ".moon", and resolve relative
to the loader's base path. -/
def resolvePath (basePath modulePath : String) : String :=
  let parts := splitOnDot modulePath
  let relativePath := String.intercalate "/" parts ++ ".moon"
  filepathJoin2 basePath relativePath

/-- Module name an import statement actually loads: evalImportStatement in
the evaluator source file reads stmt.Path[0] and passes only that first
segment to the loader. -/
def importLoadedModuleName (path : List String) : String :=
  path.headD ""

/-- File the loader opens for an import statement: resolvePath applied to
the first path segment (the only thing the evaluator hands it). -/
def importLoadedFile (basePath : String) (path : List String) : String :=
  resolvePath basePath (importLoadedModuleName path)

/-- Modelled from the spec: the claimed resolution rule, which joins ALL
path segments of the import with the separator and appends ".moon".  This
definition follows the specification's words, for comparison with
importLoadedFile, which follows the source. -/
def claimImportResolvedFile (basePath : String) (path : List String) : String :=
  filepathJoin2 basePath (String.intercalate "/" path ++ ".moon")

/-- Evaluation result: the produced value together with the updated state,
or none when the fuel ran out or the computation left the embedded
fragment (file I/O, float arithmetic). -/
abbrev EvalRes := Option (Value × St)

/-- unwrapReturnValue from the evaluator source file. -/
def unwrapReturnValue : Value → Value
  | .returnV v => v
  | v => v

/-- evalMinusPrefixExpression from the evaluator source file (the float
case is outside the embedding; negation wraps in int64 exactly where Go
does). -/
def evalMinusPrefixExpression (right : Value) : Value :=
  match right with
  | .intV n => .intV (wrap64 (-n))
  | v => .errorV "" "" ("unknown operator: -" ++ valueType v)

/-- evalNotPrefixExpression from the evaluator source file. -/
def evalNotPrefixExpression (right : Value) : Value :=
  .boolV (!IsTruthy right)

/-- evalIntegerInfixExpression from the evaluator source file: int64
arithmetic with division and modulo guarded against a zero divisor. -/
def evalIntegerInfixExpression (op : String) (left right : Int) : Value :=
  match op with
  | "+" => .intV (i64add left right)
  | "-" => .intV (i64sub left right)
  | "*" => .intV (i64mul left right)
  | "/" =>
    if right = 0 then .errorV "" "" "division by zero"
    else .intV (i64div left right)
  | "%" =>
    if right = 0 then .errorV "" "" "division by zero"
    else .intV (i64mod left right)
  | ">" => .boolV (decide (left > right))
  | "<" => .boolV (decide (left < right))
  | ">=" => .boolV (decide (left ≥ right))
  | "<=" => .boolV (decide (left ≤ right))
  | _ => .errorV "" "" ("unknown operator: Integer " ++ op ++ " Integer")

/-- evalStringInfixExpression from the evaluator source file (Go compares
strings byte-lexicographically; Lean's String order is character
lexicographic, which agrees on ASCII). -/
def evalStringInfixExpression (op : String) (left right : String) : Value :=
  match op with
  | "+" => .strV (left ++ right)
  | ">" => .boolV (decide (left > right))
  | "<" => .boolV (decide (left < right))
  | ">=" => .boolV (decide (left ≥ right))
  | "<=" => .boolV (decide (left ≤ right))
  | _ => .errorV "" "" ("unknown operator: String " ++ op ++ " String")

/-- StructValue.With from value.go: copy the receiver's field map and
overlay the updates; the receiver is untouched. -/
def StructValue.With (fields : List (String × Value)) (updates : List (String × Value)) :
    List (String × Value) :=
  updates.foldl (fun acc kv => assocSet acc kv.1 kv.2) fields

/-- Update a binding in the frame (along the parent chain) where it is
found.  This models Go's in-place mutation of the MutableValue object that
env.Get returned: with a single live binding to the Mutable, rebinding the
defining frame is observation-equivalent. -/
def envSetWhereFoundAux (store : List Frame) : Nat → Nat → String → Value → List Frame
  | 0, _, _, _ => store
  | fuel + 1, addr, name, v =>
    match store.get? addr with
    | none => store
    | some fr =>
      match assocGet fr.bindings name with
      | some _ => store.set addr { fr with bindings := assocSet fr.bindings name v }
      | none =>
        match fr.parent with
        | some p => envSetWhereFoundAux store fuel p name v
        | none => store

/-- envSetWhereFound on an environment address. -/
def envSetWhereFound (store : List Frame) (addr : Nat) (name : String) (v : Value) :
    List Frame :=
  envSetWhereFoundAux store (store.length + 1) addr name v

/-- applyBuiltin models the BuiltinFunction bodies from the builtins
source file for the builtins a theorem could reach; print and println
return Null (their output stream is outside the embedding), and the
fmt.Sscanf string-parsing of the int builtin, the float builtin, and the
negative-capacity panic of range are outside the embedding (none). -/
def applyBuiltin (name : String) (args : List Value) : Option Value :=
  match name with
  | "print" => some .nullV
  | "println" => some .nullV
  | "range" =>
    match args with
    | [a] =>
      match UnwrapValue a with
      | .intV e =>
        if e < 0 then none
        else some (.listV ((List.range e.toNat).map (fun i => .intV (Int.ofNat i))))
      | _ => some (.errorV "" "" "range() argument must be an integer")
    | [a, b] =>
      match UnwrapValue a, UnwrapValue b with
      | .intV s, .intV e =>
        if e < s then none
        else some (.listV (((List.range (e - s).toNat).map
          (fun i => .intV (s + Int.ofNat i)))))
      | .intV _, _ => some (.errorV "" "" "range() end must be an integer")
      | _, _ => some (.errorV "" "" "range() start must be an integer")
    | _ => some (.errorV "" "" "range() requires 1 or 2 arguments")
  | "len" =>
    match args with
    | [a] =>
      match UnwrapValue a with
      | .strV s => some (.intV (Int.ofNat s.utf8ByteSize))
      | .listV elems => some (.intV (Int.ofNat elems.length))
      | .mapV pairs => some (.intV (Int.ofNat pairs.length))
      | v => some (.errorV "" "" ("len() not supported for " ++ valueType v))
    | _ => some (.errorV "" "" "len() requires exactly 1 argument")
  | "type" =>
    match args with
    | [a] => some (.strV (valueType (UnwrapValue a)))
    | _ => some (.errorV "" "" "type() requires exactly 1 argument")
  | "str" =>
    match args with
    | [a] => some (.strV (valueString (UnwrapValue a)))
    | _ => some (.errorV "" "" "str() requires exactly 1 argument")
  | _ => none

/-- evalIdentifier from the evaluator source file. -/
def evalIdentifier (name : String) (env : Nat) (st : St) : Value :=
  match envGet st.store env name with
  | some v => v
  | none => .errorV "" "" ("undefined: " ++ name)

/-- extendFunctionEnv's parameter binding from the evaluator source file:
bind parameters positionally while arguments remain (extra arguments are
ignored, missing parameters stay unbound). -/
def bindParams (store : List Frame) (env : Nat) : List String → List Value → List Frame
  | [], _ => store
  | _ :: _, [] => store
  | p :: ps, a :: rest => bindParams (envSet store env p a) env ps rest

set_option maxHeartbeats 3200000

/-- evalMapMethod from the evaluator source file. -/
def evalMapMethod : Nat → List (String × Value) → String → List Value → Nat → St →
    Option (Option (Value × St))
  | 0, _, _, _, _, _ => none
  | _fuel + 1, pairs, method, args, _env, st =>
    match method with
    | "get" =>
      match args with
      | [a] =>
        match UnwrapValue a with
        | .strV key => some (some (mapGet pairs key, st))
        | _ => some (some (.errorV "" "" "get() argument must be a string", st))
      | _ => some (some (.errorV "" "" "get() requires 1 argument", st))
    | "insert" =>
      match args with
      | [a, b] =>
        match UnwrapValue a with
        | .strV key => some (some (mapInsert pairs key b, st))
        | _ => some (some (.errorV "" "" "insert() first argument must be a string", st))
      | _ => some (some (.errorV "" "" "insert() requires 2 arguments", st))
    | "remove" =>
      match args with
      | [a] =>
        match UnwrapValue a with
        | .strV key => some (some (mapRemove pairs key, st))
        | _ => some (some (.errorV "" "" "remove() argument must be a string", st))
      | _ => some (some (.errorV "" "" "remove() requires 1 argument", st))
    | "keys" => some (some (mapKeys pairs, st))
    | "values" => some (some (mapValues pairs, st))
    | "contains" =>
      match args with
      | [a] =>
        match UnwrapValue a with
        | .strV key => some (some (.boolV (mapContains pairs key), st))
        | _ => some (some (.errorV "" "" "contains() argument must be a string", st))
      | _ => some (some (.errorV "" "" "contains() requires 1 argument", st))
    | _ => some none

/-- evalStringMethod from the evaluator source file (takes no evaluator
state beyond the current one: every string method is pure). -/
def evalStringMethod (s : String) (method : String) (args : List Value) (st : St) :
    Option (Value × St) :=
  match method with
  | "length" => some (stringLength s, st)
  | "split" =>
    match args with
    | [a] =>
      match UnwrapValue a with
      | .strV sep => some (stringSplit s sep, st)
      | _ => some (.errorV "" "" "split() argument must be a string", st)
    | _ => some (.errorV "" "" "split() requires 1 argument", st)
  | "contains" =>
    match args with
    | [a] =>
      match UnwrapValue a with
      | .strV substr => some (.boolV (stringContains s substr), st)
      | _ => some (.errorV "" "" "contains() argument must be a string", st)
    | _ => some (.errorV "" "" "contains() requires 1 argument", st)
  | "trim" => some (stringTrim s, st)
  | "upper" => some (stringUpper s, st)
  | "lower" => some (stringLower s, st)
  | _ => none

mutual

/-- Eval from the evaluator source file, statement half of the Node
dispatch.  Every function of this mutual block consumes one unit of fuel
on entry; none means the fuel ran out or the computation left the embedded
fragment. -/
def evalStmt : Nat → Stmt → Nat → St → EvalRes
  | 0, _, _, _ => none
  | fuel + 1, s, env, st =>
    match s with
    | .defStmt name _ value => evalDefStatement fuel name value env st
    | .returnStmt value => evalReturnStatement fuel value env st
    | .exprStmt e => evalExpr fuel e env st
    | .blockStmt stmts => evalBlockStatement fuel stmts env st
    | .funcStmt name params _ body =>
      let fn : Value := .funcV name (params.map (fun p => p.1)) body none env false
      some (fn, { st with store := envSet st.store env name fn })
    | .whileStmt cond body => evalWhileStatement fuel cond body env st
    | .forStmt varName iterable body => evalForStatement fuel varName iterable body env st
    | .breakStmt => some (.breakV, st)
    | .continueStmt => some (.continueV, st)
    | .structStmt name fields =>
      let fieldNames := fields.map (fun f => f.1)
      let defV : Value := .structDefV name fieldNames
      some (defV,
        { st with
          structs := assocSet st.structs name fieldNames
          store := envSet st.store env name defV })
    | .extendStmt typeName methods =>
      let existing := (assocGet st.extensions typeName).getD []
      let table := methods.foldl
        (fun acc m =>
          assocSet acc m.1 (.funcV m.1 (m.2.1.map (fun p => p.1)) m.2.2.2 none env false))
        existing
      some (.nullV, { st with extensions := assocSet st.extensions typeName table })
    | .importStmt path =>
      -- evalImportStatement: only the first path segment names the module;
      -- a cache hit binds and returns the cached module, a cache miss
      -- loads a file from disk, which is outside the embedding.
      let moduleName := path.headD ""
      match assocGet st.modules moduleName with
      | some mod => some (mod, { st with store := envSet st.store env moduleName mod })
      | none => none
termination_by structural fuel => fuel

/-- Eval from the evaluator source file, expression half of the Node
dispatch.  The float literal case is outside the embedding. -/
def evalExpr : Nat → Expr → Nat → St → EvalRes
  | 0, _, _, _ => none
  | fuel + 1, e, env, st =>
    match e with
    | .intLit n _ => some (.intV n, st)
    | .strLit s => some (.strV s, st)
    | .boolLit b => some (.boolV b, st)
    | .ident name => some (evalIdentifier name env st, st)
    | .prefixE op right => evalPrefixExpression fuel op right env st
    | .infixE left op right => evalInfixExpression fuel left op right env st
    | .assignE name value => evalAssignmentExpression fuel name value env st
    | .ifE cond cons alt => evalIfExpression fuel cond cons alt env st
    | .funcLit params body =>
      some (.funcV "" params [] (some body) env true, st)
    | .callE func args => evalCallExpression fuel func args env st
    | .memberE obj member => evalMemberExpression fuel obj member env st
    | .indexE left idx => evalIndexExpression fuel left idx env st
    | .listLit elems => evalListLiteral fuel elems env st
    | .mapLit pairs => evalMapLiteral fuel pairs env st
    | .structLit name fields => evalStructLiteral fuel name fields env st
    | .withE obj updates => evalWithExpression fuel obj updates env st
    | .optionE isSome value => evalOptionExpression fuel isSome value env st
    | .resultE isOk value => evalResultExpression fuel isOk value env st
    | .mutableE _ value => evalMutableExpression fuel value env st
termination_by structural fuel => fuel

/-- evalProgram from the evaluator source file: run the statements in
order; a Return unwraps and ends the program, an Error ends it; the last
statement's value is the program's value. -/
def evalProgram : Nat → List Stmt → Nat → St → EvalRes
  | 0, _, _, _ => none
  | fuel + 1, stmts, env, st => evalProgramLoop fuel stmts .nullV env st

/-- Loop of evalProgram, with the running result as accumulator. -/
def evalProgramLoop : Nat → List Stmt → Value → Nat → St → EvalRes
  | 0, _, _, _, _ => none
  | fuel + 1, stmts, result, env, st =>
    match stmts with
    | [] => some (result, st)
    | s :: rest =>
      match evalStmt fuel s env st with
      | none => none
      | some (v, st1) =>
        match v with
        | .returnV inner => some (inner, st1)
        | .errorV m i msg => some (.errorV m i msg, st1)
        | _ => evalProgramLoop fuel rest v env st1
termination_by structural fuel => fuel

/-- evalBlockStatement from the evaluator source file: run the statements
in order; a Return, Break or Continue value ends the block and is returned
unchanged; the last statement's value is the block's value. -/
def evalBlockStatement : Nat → List Stmt → Nat → St → EvalRes
  | 0, _, _, _ => none
  | fuel + 1, stmts, env, st => evalBlockLoop fuel stmts .nullV env st
termination_by structural fuel => fuel

/-- Loop of evalBlockStatement, with the running result as accumulator. -/
def evalBlockLoop : Nat → List Stmt → Value → Nat → St → EvalRes
  | 0, _, _, _, _ => none
  | fuel + 1, stmts, result, env, st =>
    match stmts with
    | [] => some (result, st)
    | s :: rest =>
      match evalStmt fuel s env st with
      | none => none
      | some (v, st1) =>
        match v with
        | .returnV inner => some (.returnV inner, st1)
        | .breakV => some (.breakV, st1)
        | .continueV => some (.continueV, st1)
        | _ => evalBlockLoop fuel rest v env st1
termination_by structural fuel => fuel

/-- evalDefStatement from the evaluator source file: an ErrorValue is a
legitimate value to bind, so it is not propagated. -/
def evalDefStatement : Nat → String → Expr → Nat → St → EvalRes
  | 0, _, _, _, _ => none
  | fuel + 1, name, value, env, st =>
    match evalExpr fuel value env st with
    | none => none
    | some (v, st1) => some (v, { st1 with store := envSet st1.store env name v })
termination_by structural fuel => fuel

/-- evalReturnStatement from the evaluator source file. -/
def evalReturnStatement : Nat → Option Expr → Nat → St → EvalRes
  | 0, _, _, _ => none
  | fuel + 1, value, env, st =>
    match value with
    | none => some (.returnV .nullV, st)
    | some vexpr =>
      match evalExpr fuel vexpr env st with
      | none => none
      | some (v, st1) =>
        if isError v then some (v, st1) else some (.returnV v, st1)
termination_by structural fuel => fuel

/-- evalWhileStatement from the evaluator source file: each iteration gets
a fresh enclosed environment; Break ends the loop with Null, Continue goes
to the next iteration, Return or Error aborts the loop. -/
def evalWhileStatement : Nat → Expr → List Stmt → Nat → St → EvalRes
  | 0, _, _, _, _ => none
  | fuel + 1, cond, body, env, st =>
    match evalExpr fuel cond env st with
    | none => none
    | some (condV, st1) =>
      if isError condV then some (condV, st1)
      else if !IsTruthy condV then some (.nullV, st1)
      else
        let (bodyEnv, store1) := newEnclosedEnvironment st1.store env
        match evalBlockStatement fuel body bodyEnv { st1 with store := store1 } with
        | none => none
        | some (v, st2) =>
          match v with
          | .breakV => some (.nullV, st2)
          | .returnV inner => some (.returnV inner, st2)
          | .errorV m i msg => some (.errorV m i msg, st2)
          | _ => evalWhileStatement fuel cond body env st2
termination_by structural fuel => fuel

/-- evalForStatement from the evaluator source file. -/
def evalForStatement : Nat → String → Expr → List Stmt → Nat → St → EvalRes
  | 0, _, _, _, _, _ => none
  | fuel + 1, varName, iterable, body, env, st =>
    match evalExpr fuel iterable env st with
    | none => none
    | some (iterV, st1) =>
      if isError iterV then some (iterV, st1)
      else
        match UnwrapValue iterV with
        | .listV elems => evalForLoop fuel varName elems body env st1
        | _ => some (.errorV "" "" ("cannot iterate over " ++ valueType iterV), st1)
termination_by structural fuel => fuel

/-- Loop of evalForStatement over the list elements. -/
def evalForLoop : Nat → String → List Value → List Stmt → Nat → St → EvalRes
  | 0, _, _, _, _, _ => none
  | fuel + 1, varName, elems, body, env, st =>
    match elems with
    | [] => some (.nullV, st)
    | elem :: rest =>
      let (loopEnv, store1) := newEnclosedEnvironment st.store env
      let store2 := envSet store1 loopEnv varName elem
      match evalBlockStatement fuel body loopEnv { st with store := store2 } with
      | none => none
      | some (v, st1) =>
        match v with
        | .breakV => some (.nullV, st1)
        | .returnV inner => some (.returnV inner, st1)
        | .errorV m i msg => some (.errorV m i msg, st1)
        | _ => evalForLoop fuel varName rest body env st1
termination_by structural fuel => fuel

/-- evalPrefixExpression from the evaluator source file. -/
def evalPrefixExpression : Nat → String → Expr → Nat → St → EvalRes
  | 0, _, _, _, _ => none
  | fuel + 1, op, right, env, st =>
    match evalExpr fuel right env st with
    | none => none
    | some (rightV, st1) =>
      if isError rightV then some (rightV, st1)
      else
        let r := UnwrapValue rightV
        match op with
        | "-" => some (evalMinusPrefixExpression r, st1)
        | "not" => some (evalNotPrefixExpression r, st1)
        | _ => some (.errorV "" "" ("unknown operator: " ++ op ++ valueType r), st1)
termination_by structural fuel => fuel

/-- evalInfixExpression from the evaluator source file.  The mixed and
pure float branches are outside the embedding; with no float operand the
dispatch is exactly the source's. -/
def evalInfixExpression : Nat → Expr → String → Expr → Nat → St → EvalRes
  | 0, _, _, _, _, _ => none
  | fuel + 1, left, op, right, env, st =>
    match evalExpr fuel left env st with
    | none => none
    | some (leftV, st1) =>
      if isError leftV then some (leftV, st1)
      else
        match evalExpr fuel right env st1 with
        | none => none
        | some (rightV, st2) =>
          if isError rightV then some (rightV, st2)
          else
            let l := UnwrapValue leftV
            let r := UnwrapValue rightV
            if op = "and" then some (.boolV (IsTruthy l && IsTruthy r), st2)
            else if op = "or" then some (.boolV (IsTruthy l || IsTruthy r), st2)
            else if op = "is" then some (.boolV (valuesEqual l r), st2)
            else
              match l, r with
              | .intV a, .intV b => some (evalIntegerInfixExpression op a b, st2)
              | .strV a, .strV b => some (evalStringInfixExpression op a b, st2)
              | _, _ =>
                some (.errorV "" ""
                  ("type mismatch: " ++ valueType l ++ " " ++ op ++ " " ++ valueType r), st2)
termination_by structural fuel => fuel

/-- evalAssignmentExpression from the evaluator source file: the left name
must be bound to a Mutable, whose inner value is replaced in place. -/
def evalAssignmentExpression : Nat → String → Expr → Nat → St → EvalRes
  | 0, _, _, _, _ => none
  | fuel + 1, name, value, env, st =>
    match evalExpr fuel value env st with
    | none => none
    | some (v, st1) =>
      if isError v then some (v, st1)
      else
        match envGet st1.store env name with
        | none => some (.errorV "" "" ("undefined: " ++ name), st1)
        | some existing =>
          match existing with
          | .mutableV _ =>
            let inner := UnwrapValue v
            some (inner,
              { st1 with store := envSetWhereFound st1.store env name (.mutableV inner) })
          | _ => some (.errorV "" "" (name ++ " is not mutable"), st1)
termination_by structural fuel => fuel

/-- evalIfExpression from the evaluator source file. -/
def evalIfExpression : Nat → Expr → List Stmt → Option (List Stmt) → Nat → St → EvalRes
  | 0, _, _, _, _, _ => none
  | fuel + 1, cond, cons, alt, env, st =>
    match evalExpr fuel cond env st with
    | none => none
    | some (condV, st1) =>
      if isError condV then some (condV, st1)
      else if IsTruthy condV then
        let (branchEnv, store1) := newEnclosedEnvironment st1.store env
        evalBlockStatement fuel cons branchEnv { st1 with store := store1 }
      else
        match alt with
        | some altBlock =>
          let (branchEnv, store1) := newEnclosedEnvironment st1.store env
          evalBlockStatement fuel altBlock branchEnv { st1 with store := store1 }
        | none => some (.nullV, st1)
termination_by structural fuel => fuel

/-- evalCallExpression from the evaluator source file: a call whose callee
is a member expression is a method call; otherwise evaluate the callee and
the arguments and apply. -/
def evalCallExpression : Nat → Expr → List Expr → Nat → St → EvalRes
  | 0, _, _, _, _ => none
  | fuel + 1, func, args, env, st =>
    match func with
    | .memberE obj member => evalMethodCall fuel obj member args env st
    | _ =>
      match evalExpr fuel func env st with
      | none => none
      | some (fnV, st1) =>
        match evalExpressions fuel args env st1 with
        | none => none
        | some (argValues, st2) => applyFunction fuel fnV argValues env st2
termination_by structural fuel => fuel

/-- evalMethodCall from the evaluator source file: evaluate the receiver
and the arguments, try the built-in methods, then the extension registry
keyed by the receiver's runtime type name.  An extension method body is
evaluated directly (not through applyFunction), with this bound to the
receiver. -/
def evalMethodCall : Nat → Expr → String → List Expr → Nat → St → EvalRes
  | 0, _, _, _, _, _ => none
  | fuel + 1, objExpr, methodName, args, env, st =>
    match evalExpr fuel objExpr env st with
    | none => none
    | some (obj, st1) =>
      match evalExpressions fuel args env st1 with
      | none => none
      | some (argValues, st2) =>
        match evalBuiltinMethod fuel obj methodName argValues env st2 with
        | none => none
        | some (some res) => some res
        | some none =>
          let typeName := valueType obj
          match assocGet st2.extensions typeName with
          | some extMethods =>
            match assocGet extMethods methodName with
            | some (.funcV _ params body _ fnEnv _) =>
              let (extEnv, store1) := newEnclosedEnvironment st2.store fnEnv
              let store2 := envSet store1 extEnv "this" obj
              let store3 := bindParams store2 extEnv params argValues
              match evalBlockStatement fuel body extEnv { st2 with store := store3 } with
              | none => none
              | some (result, st3) => some (unwrapReturnValue result, st3)
            | _ =>
              some (.errorV "" ""
                ("undefined method " ++ methodName ++ " on " ++ typeName), st2)
          | none =>
            some (.errorV "" ""
              ("undefined method " ++ methodName ++ " on " ++ typeName), st2)
termination_by structural fuel => fuel

/-- evalBuiltinMethod from the evaluator source file: unwrap Mutable, then
dispatch on the receiver's runtime tag; the inner none mirrors the Go nil
result meaning "no built-in method matched". -/
def evalBuiltinMethod : Nat → Value → String → List Value → Nat → St →
    Option (Option (Value × St))
  | 0, _, _, _, _, _ => none
  | fuel + 1, obj, method, args, env, st =>
    match UnwrapValue obj with
    | .listV elems => evalListMethod fuel elems method args env st
    | .mapV pairs => evalMapMethod fuel pairs method args env st
    | .strV s => some (evalStringMethod s method args st)
    | .resultV isOk v em ei emsg =>
      evalResultMethod fuel (isOk, v, em, ei, emsg) method args env st
    | .optionV isSome v => evalOptionMethod fuel (isSome, v) method args env st
    | .moduleV _ envRef =>
      match envGet st.store envRef method with
      | some member => some (some (member, st))
      | none => some none
    | _ => some none
termination_by structural fuel => fuel

/-- evalListMethod from the evaluator source file. -/
def evalListMethod : Nat → List Value → String → List Value → Nat → St →
    Option (Option (Value × St))
  | 0, _, _, _, _, _ => none
  | fuel + 1, elems, method, args, env, st =>
    match method with
    | "length" => some (some (listLength elems, st))
    | "get" =>
      match args with
      | [a] =>
        match UnwrapValue a with
        | .intV idx => some (some (listGet elems idx, st))
        | _ => some (some (.errorV "" "" "get() argument must be an integer", st))
      | _ => some (some (.errorV "" "" "get() requires 1 argument", st))
    | "append" =>
      match args with
      | [a] => some (some (listAppend elems a, st))
      | _ => some (some (.errorV "" "" "append() requires 1 argument", st))
    | "map" =>
      match args with
      | [a] =>
        match a with
        | .funcV _ _ _ _ _ _ => listMapRun fuel a elems [] env st
        | _ => some (some (.errorV "" "" "map() argument must be a function", st))
      | _ => some (some (.errorV "" "" "map() requires 1 argument", st))
    | "filter" =>
      match args with
      | [a] =>
        match a with
        | .funcV _ _ _ _ _ _ => listFilterRun fuel a elems [] env st
        | _ => some (some (.errorV "" "" "filter() argument must be a function", st))
      | _ => some (some (.errorV "" "" "filter() requires 1 argument", st))
    | "reduce" =>
      match args with
      | [a, b] =>
        match a with
        | .funcV _ _ _ _ _ _ => listReduceRun fuel a elems b env st
        | _ => some (some (.errorV "" "" "reduce() first argument must be a function", st))
      | _ => some (some (.errorV "" "" "reduce() requires 2 arguments", st))
    | "find" =>
      match args with
      | [a] =>
        match a with
        | .funcV _ _ _ _ _ _ => listFindRun fuel a elems env st
        | _ => some (some (.errorV "" "" "find() argument must be a function", st))
      | _ => some (some (.errorV "" "" "find() requires 1 argument", st))
    | "contains" =>
      match args with
      | [a] => some (some (.boolV (listContains elems a), st))
      | _ => some (some (.errorV "" "" "contains() requires 1 argument", st))
    | _ => some none
termination_by structural fuel => fuel

/-- listMap from the builtins source file: apply the function to every
element, collecting the results. -/
def listMapRun : Nat → Value → List Value → List Value → Nat → St →
    Option (Option (Value × St))
  | 0, _, _, _, _, _ => none
  | fuel + 1, fn, elems, acc, env, st =>
    match elems with
    | [] => some (some (.listV acc.reverse, st))
    | elem :: rest =>
      match applyFunction fuel fn [elem] env st with
      | none => none
      | some (v, st1) => listMapRun fuel fn rest (v :: acc) env st1
termination_by structural fuel => fuel

/-- listFilter from the builtins source file: keep the elements on which
the function's result is truthy. -/
def listFilterRun : Nat → Value → List Value → List Value → Nat → St →
    Option (Option (Value × St))
  | 0, _, _, _, _, _ => none
  | fuel + 1, fn, elems, acc, env, st =>
    match elems with
    | [] => some (some (.listV acc.reverse, st))
    | elem :: rest =>
      match applyFunction fuel fn [elem] env st with
      | none => none
      | some (v, st1) =>
        if IsTruthy v then listFilterRun fuel fn rest (elem :: acc) env st1
        else listFilterRun fuel fn rest acc env st1
termination_by structural fuel => fuel

/-- listReduce from the builtins source file. -/
def listReduceRun : Nat → Value → List Value → Value → Nat → St →
    Option (Option (Value × St))
  | 0, _, _, _, _, _ => none
  | fuel + 1, fn, elems, acc, env, st =>
    match elems with
    | [] => some (some (acc, st))
    | elem :: rest =>
      match applyFunction fuel fn [acc, elem] env st with
      | none => none
      | some (v, st1) => listReduceRun fuel fn rest v env st1
termination_by structural fuel => fuel

/-- listFind from the builtins source file. -/
def listFindRun : Nat → Value → List Value → Nat → St →
    Option (Option (Value × St))
  | 0, _, _, _, _ => none
  | fuel + 1, fn, elems, env, st =>
    match elems with
    | [] => some (some (.optionV false .nullV, st))
    | elem :: rest =>
      match applyFunction fuel fn [elem] env st with
      | none => none
      | some (v, st1) =>
        if IsTruthy v then some (some (.optionV true elem, st1))
        else listFindRun fuel fn rest env st1
termination_by structural fuel => fuel

/-- evalResultMethod from the evaluator source file: then and map
short-circuit on an Error receiver by returning the receiver unchanged;
then flattens a Result returned by the function, map always wraps in Ok;
unwrap returns the inner value or the stored ErrorValue; unwrapOr
substitutes the default on Error. -/
def evalResultMethod : Nat → Bool × Value × String × String × String → String →
    List Value → Nat → St → Option (Option (Value × St))
  | 0, _, _, _, _, _ => none
  | fuel + 1, r, method, args, env, st =>
    let rv : Value := .resultV r.1 r.2.1 r.2.2.1 r.2.2.2.1 r.2.2.2.2
    match method with
    | "then" =>
      match args with
      | [a] =>
        if !r.1 then some (some (rv, st))
        else
          match a with
          | .funcV _ _ _ _ _ _ =>
            match applyFunction fuel a [r.2.1] env st with
            | none => none
            | some (result, st1) =>
              match result with
              | .resultV isOk v em ei emsg =>
                some (some (.resultV isOk v em ei emsg, st1))
              | _ => some (some (.resultV true result "" "" "", st1))
          | _ => some (some (.errorV "" "" "then() argument must be a function", st))
      | _ => some (some (.errorV "" "" "then() requires 1 argument", st))
    | "map" =>
      match args with
      | [a] =>
        if !r.1 then some (some (rv, st))
        else
          match a with
          | .funcV _ _ _ _ _ _ =>
            match applyFunction fuel a [r.2.1] env st with
            | none => none
            | some (result, st1) => some (some (.resultV true result "" "" "", st1))
          | _ => some (some (.errorV "" "" "map() argument must be a function", st))
      | _ => some (some (.errorV "" "" "map() requires 1 argument", st))
    | "unwrap" =>
      if !r.1 then some (some (.errorV r.2.2.1 r.2.2.2.1 r.2.2.2.2, st))
      else some (some (r.2.1, st))
    | "unwrapOr" =>
      match args with
      | [a] =>
        if !r.1 then some (some (a, st))
        else some (some (r.2.1, st))
      | _ => some (some (.errorV "" "" "unwrapOr() requires 1 argument", st))
    | _ => some none
termination_by structural fuel => fuel

/-- evalOptionMethod from the evaluator source file. -/
def evalOptionMethod : Nat → Bool × Value → String → List Value → Nat → St →
    Option (Option (Value × St))
  | 0, _, _, _, _, _ => none
  | fuel + 1, o, method, args, env, st =>
    match method with
    | "unwrap" =>
      if !o.1 then some (some (.errorV "" "" "called unwrap on None", st))
      else some (some (o.2, st))
    | "unwrapOr" =>
      match args with
      | [a] =>
        if !o.1 then some (some (a, st))
        else some (some (o.2, st))
      | _ => some (some (.errorV "" "" "unwrapOr() requires 1 argument", st))
    | "map" =>
      match args with
      | [a] =>
        if !o.1 then some (some (.optionV o.1 o.2, st))
        else
          match a with
          | .funcV _ _ _ _ _ _ =>
            match applyFunction fuel a [o.2] env st with
            | none => none
            | some (result, st1) => some (some (.optionV true result, st1))
          | _ => some (some (.errorV "" "" "map() argument must be a function", st))
      | _ => some (some (.errorV "" "" "map() requires 1 argument", st))
    | "isSome" => some (some (.boolV o.1, st))
    | "isNone" => some (some (.boolV (!o.1), st))
    | _ => some none
termination_by structural fuel => fuel

/-- evalExpressions from the evaluator source file: evaluate every
argument in order; error values stay in the list. -/
def evalExpressions : Nat → List Expr → Nat → St → Option (List Value × St)
  | 0, _, _, _ => none
  | fuel + 1, exprs, env, st =>
    match exprs with
    | [] => some ([], st)
    | e :: rest =>
      match evalExpr fuel e env st with
      | none => none
      | some (v, st1) =>
        match evalExpressions fuel rest env st1 with
        | none => none
        | some (vs, st2) => some (v :: vs, st2)
termination_by structural fuel => fuel

/-- applyFunction from the evaluator source file: a FunctionValue runs its
body in a fresh environment enclosing its captured one, recording its name
in currentFn for the duration and unwrapping a trailing Return; a builtin
runs its native body; a struct definition and anything else are errors. -/
def applyFunction : Nat → Value → List Value → Nat → St → EvalRes
  | 0, _, _, _, _ => none
  | fuel + 1, fn, args, _callerEnv, st =>
    match fn with
    | .funcV name params body lambdaBody fnEnv isLambda =>
      let oldFn := st.currentFn
      let (extendedEnv, store1) := newEnclosedEnvironment st.store fnEnv
      let store2 := bindParams store1 extendedEnv params args
      let st1 : St := { st with store := store2, currentFn := name }
      let bodyRes :=
        match isLambda, lambdaBody with
        | true, some lb => evalExpr fuel lb extendedEnv st1
        | _, _ => evalBlockStatement fuel body extendedEnv st1
      match bodyRes with
      | none => none
      | some (evaluated, st2) =>
        some (unwrapReturnValue evaluated, { st2 with currentFn := oldFn })
    | .builtinV name =>
      match applyBuiltin name args with
      | some v => some (v, st)
      | none => none
    | .structDefV _ _ =>
      some (.errorV "" "" (valueType fn ++ " is not callable"), st)
    | _ => some (.errorV "" "" ("not a function: " ++ valueType fn), st)
termination_by structural fuel => fuel

/-- evalMemberExpression from the evaluator source file: struct field
access, then module export access. -/
def evalMemberExpression : Nat → Expr → String → Nat → St → EvalRes
  | 0, _, _, _, _ => none
  | fuel + 1, objExpr, member, env, st =>
    match evalExpr fuel objExpr env st with
    | none => none
    | some (obj, st1) =>
      if isError obj then some (obj, st1)
      else
        match UnwrapValue obj with
        | .structV defName _ fields =>
          match assocGet fields member with
          | some v => some (v, st1)
          | none =>
            some (.errorV "" ""
              ("undefined field " ++ member ++ " on " ++ defName), st1)
        | _ =>
          match obj with
          | .moduleV name envRef =>
            match envGet st1.store envRef member with
            | some v => some (v, st1)
            | none =>
              some (.errorV "" ""
                ("undefined export " ++ member ++ " in module " ++ name), st1)
          | _ =>
            some (.errorV "" "" ("cannot access member of " ++ valueType obj), st1)
termination_by structural fuel => fuel

/-- evalIndexExpression from the evaluator source file: list and string
indexing is bounds-checked with an "index out of bounds" error, map
indexing gives None for an absent key.  String indexing takes the byte at
the index in Go; the embedding takes the character, which agrees on ASCII
strings. -/
def evalIndexExpression : Nat → Expr → Expr → Nat → St → EvalRes
  | 0, _, _, _, _ => none
  | fuel + 1, leftExpr, idxExpr, env, st =>
    match evalExpr fuel leftExpr env st with
    | none => none
    | some (leftV, st1) =>
      if isError leftV then some (leftV, st1)
      else
        match evalExpr fuel idxExpr env st1 with
        | none => none
        | some (idxV, st2) =>
          if isError idxV then some (idxV, st2)
          else
            match UnwrapValue leftV, UnwrapValue idxV with
            | .listV elems, .intV idx =>
              if idx < 0 || idx ≥ Int.ofNat elems.length then
                some (.errorV "" "" "index out of bounds", st2)
              else
                some (elems.getD idx.toNat .nullV, st2)
            | .listV _, _ =>
              some (.errorV "" "" "list index must be an integer", st2)
            | .mapV pairs, .strV key =>
              match assocGet pairs key with
              | some v => some (v, st2)
              | none => some (.optionV false .nullV, st2)
            | .mapV _, _ =>
              some (.errorV "" "" "map key must be a string", st2)
            | .strV s, .intV idx =>
              if idx < 0 || idx ≥ Int.ofNat s.length then
                some (.errorV "" "" "index out of bounds", st2)
              else
                some (.strV (String.mk [s.toList.getD idx.toNat ' ']), st2)
            | .strV _, _ =>
              some (.errorV "" "" "string index must be an integer", st2)
            | l, _ =>
              some (.errorV "" "" ("cannot index " ++ valueType l), st2)
termination_by structural fuel => fuel

/-- evalListLiteral from the evaluator source file (its singleton-error
propagation check included). -/
def evalListLiteral : Nat → List Expr → Nat → St → EvalRes
  | 0, _, _, _ => none
  | fuel + 1, elems, env, st =>
    match evalExpressions fuel elems env st with
    | none => none
    | some (vs, st1) =>
      match vs with
      | [v] => if isError v then some (v, st1) else some (.listV vs, st1)
      | _ => some (.listV vs, st1)
termination_by structural fuel => fuel

/-- evalMapLiteral from the evaluator source file: keys must evaluate to
strings. -/
def evalMapLiteral : Nat → List (Expr × Expr) → Nat → St → EvalRes
  | 0, _, _, _ => none
  | fuel + 1, pairs, env, st => evalMapLiteralLoop fuel pairs [] env st
termination_by structural fuel => fuel

/-- Loop of evalMapLiteral. -/
def evalMapLiteralLoop : Nat → List (Expr × Expr) → List (String × Value) → Nat → St →
    EvalRes
  | 0, _, _, _, _ => none
  | fuel + 1, pairs, acc, env, st =>
    match pairs with
    | [] => some (.mapV acc, st)
    | (keyExpr, valExpr) :: rest =>
      match evalExpr fuel keyExpr env st with
      | none => none
      | some (keyV, st1) =>
        if isError keyV then some (keyV, st1)
        else
          match UnwrapValue keyV with
          | .strV key =>
            match evalExpr fuel valExpr env st1 with
            | none => none
            | some (v, st2) =>
              if isError v then some (v, st2)
              else evalMapLiteralLoop fuel rest (assocSet acc key v) env st2
          | _ => some (.errorV "" "" "map key must be a string", st1)
termination_by structural fuel => fuel

/-- evalStructLiteral from the evaluator source file: the struct must be
registered; field values that evaluate to errors propagate. -/
def evalStructLiteral : Nat → String → List (String × Expr) → Nat → St → EvalRes
  | 0, _, _, _, _ => none
  | fuel + 1, name, fields, env, st =>
    match assocGet st.structs name with
    | none => some (.errorV "" "" ("undefined struct: " ++ name), st)
    | some fieldNames => evalStructLiteralLoop fuel name fieldNames fields [] env st
termination_by structural fuel => fuel

/-- Loop of evalStructLiteral over the field initialisers. -/
def evalStructLiteralLoop : Nat → String → List String → List (String × Expr) →
    List (String × Value) → Nat → St → EvalRes
  | 0, _, _, _, _, _, _ => none
  | fuel + 1, name, fieldNames, fields, acc, env, st =>
    match fields with
    | [] => some (.structV name fieldNames acc, st)
    | (fname, fexpr) :: rest =>
      match evalExpr fuel fexpr env st with
      | none => none
      | some (v, st1) =>
        if isError v then some (v, st1)
        else evalStructLiteralLoop fuel name fieldNames rest (assocSet acc fname v) env st1
termination_by structural fuel => fuel

/-- evalWithExpression from the evaluator source file: evaluate the
receiver (must unwrap to a struct) and the updates, and build the new
struct with StructValue.With. -/
def evalWithExpression : Nat → Expr → List (String × Expr) → Nat → St → EvalRes
  | 0, _, _, _, _ => none
  | fuel + 1, objExpr, updates, env, st =>
    match evalExpr fuel objExpr env st with
    | none => none
    | some (obj, st1) =>
      if isError obj then some (obj, st1)
      else
        match UnwrapValue obj with
        | .structV defName defFieldNames fields =>
          evalWithLoop fuel defName defFieldNames fields updates [] env st1
        | _ =>
          some (.errorV "" ""
            ("with can only be used on structs, got " ++ valueType obj), st1)
termination_by structural fuel => fuel

/-- Loop of evalWithExpression over the updates. -/
def evalWithLoop : Nat → String → List String → List (String × Value) →
    List (String × Expr) → List (String × Value) → Nat → St → EvalRes
  | 0, _, _, _, _, _, _, _ => none
  | fuel + 1, defName, defFieldNames, fields, updates, acc, env, st =>
    match updates with
    | [] =>
      some (.structV defName defFieldNames (StructValue.With fields acc.reverse), st)
    | (uname, uexpr) :: rest =>
      match evalExpr fuel uexpr env st with
      | none => none
      | some (v, st1) =>
        if isError v then some (v, st1)
        else evalWithLoop fuel defName defFieldNames fields rest ((uname, v) :: acc) env st1
termination_by structural fuel => fuel

/-- evalOptionExpression from the evaluator source file. -/
def evalOptionExpression : Nat → Bool → Option Expr → Nat → St → EvalRes
  | 0, _, _, _, _ => none
  | fuel + 1, isSome, value, env, st =>
    if !isSome then some (.optionV false .nullV, st)
    else
      match value with
      | none => some (.optionV true .nullV, st)
      | some vexpr =>
        match evalExpr fuel vexpr env st with
        | none => none
        | some (v, st1) =>
          if isError v then some (v, st1)
          else some (.optionV true v, st1)
termination_by structural fuel => fuel

/-- evalResultExpression from the evaluator source file: Ok wraps the
value; Error records the current function name as the error's method and
the value (string, or its rendering) as the message. -/
def evalResultExpression : Nat → Bool → Expr → Nat → St → EvalRes
  | 0, _, _, _, _ => none
  | fuel + 1, isOk, value, env, st =>
    match evalExpr fuel value env st with
    | none => none
    | some (v, st1) =>
      if isError v then some (v, st1)
      else if isOk then some (.resultV true v "" "" "", st1)
      else
        match v with
        | .strV s => some (.resultV false .nullV st1.currentFn "" s, st1)
        | _ => some (.resultV false .nullV st1.currentFn "" (valueString v), st1)
termination_by structural fuel => fuel

/-- evalMutableExpression from the evaluator source file. -/
def evalMutableExpression : Nat → Expr → Nat → St → EvalRes
  | 0, _, _, _ => none
  | fuel + 1, value, env, st =>
    match evalExpr fuel value env st with
    | none => none
    | some (v, st1) =>
      if isError v then some (v, st1)
      else some (.mutableV (UnwrapValue v), st1)
termination_by structural fuel => fuel

end

/-- Ty mirrors the Type interface of the types source file: the structural
type tags of the checker.  A struct type carries its name and field map;
Equals compares struct types by name only. -/
inductive Ty : Type where
  | integer
  | float
  | str
  | boolean
  | null
  | list (elem : Ty)
  | map (key value : Ty)
  | option (elem : Ty)
  | result (valueType errorType : Ty)
  | mutable (elem : Ty)
  | func (params : List Ty) (ret : Ty)
  | structT (name : String) (fields : List (String × Ty))
  | any

mutual

/-- Equals from the types source file: structural comparison, except that
struct types compare by name and AnyType.Equals is true for every
argument (note the asymmetry: IntegerType.Equals(AnyType) is false). -/
def tyEquals : Ty → Ty → Bool
  | .integer, o => match o with | .integer => true | _ => false
  | .float, o => match o with | .float => true | _ => false
  | .str, o => match o with | .str => true | _ => false
  | .boolean, o => match o with | .boolean => true | _ => false
  | .null, o => match o with | .null => true | _ => false
  | .list e, o => match o with | .list e2 => tyEquals e e2 | _ => false
  | .map k v, o => match o with | .map k2 v2 => tyEquals k k2 && tyEquals v v2 | _ => false
  | .option e, o => match o with | .option e2 => tyEquals e e2 | _ => false
  | .result v er, o =>
    match o with | .result v2 er2 => tyEquals v v2 && tyEquals er er2 | _ => false
  | .mutable e, o => match o with | .mutable e2 => tyEquals e e2 | _ => false
  | .func ps r, o =>
    match o with
    | .func ps2 r2 =>
      ps.length == ps2.length && tyEqualsList ps ps2 && tyEquals r r2
    | _ => false
  | .structT n _, o => match o with | .structT n2 _ => n == n2 | _ => false
  | .any, _ => true
termination_by structural t => t

/-- Pointwise Equals over parameter lists. -/
def tyEqualsList : List Ty → List Ty → Bool
  | [], [] => true
  | [], _ :: _ => true
  | _ :: _, [] => true
  | t :: ts, u :: us => tyEquals t u && tyEqualsList ts us
termination_by structural l => l

end

mutual

/-- String() methods of the types source file. -/
def tyString : Ty → String
  | .integer => "Integer"
  | .float => "Float"
  | .str => "String"
  | .boolean => "Boolean"
  | .null => "Null"
  | .list e => "List[" ++ tyString e ++ "]"
  | .map k v => "Map[" ++ tyString k ++ ", " ++ tyString v ++ "]"
  | .option e => "Option[" ++ tyString e ++ "]"
  | .result v er => "Result[" ++ tyString v ++ ", " ++ tyString er ++ "]"
  | .mutable e => "Mutable[" ++ tyString e ++ "]"
  | .func ps r => "(" ++ joinComma (tyStringList ps) ++ ") -> " ++ tyString r
  | .structT n _ => n
  | .any => "Any"
termination_by structural t => t

/-- Rendering of each parameter type. -/
def tyStringList : List Ty → List String
  | [] => []
  | t :: ts => tyString t :: tyStringList ts
termination_by structural l => l

end

/-- TypeFromAnnotation from the types source file, with explicit fuel for
the recursion through type parameters (none means the fuel ran out; every
claim below supplies ample fuel).  A nil annotation is Any; a Map key
parameter that is not String falls back to String, as in the source; an
unknown name is a struct type with an empty field map. -/
def typeFromAnn : Nat → Option TypeAnn → Option Ty
  | 0, _ => none
  | _ + 1, none => some .any
  | fuel + 1, some (.mk name params) =>
    match name with
    | "Integer" => some .integer
    | "Float" => some .float
    | "String" => some .str
    | "Boolean" => some .boolean
    | "List" =>
      match params with
      | p :: _ =>
        match typeFromAnn fuel (some p) with
        | none => none
        | some e => some (.list e)
      | [] => some (.list .any)
    | "Map" =>
      match params with
      | [] => some (.map .str .any)
      | p :: rest =>
        match typeFromAnn fuel (some p) with
        | none => none
        | some k =>
          let key : Ty := match k with | .str => .str | _ => .str
          match rest with
          | [] => some (.map key .any)
          | q :: _ =>
            match typeFromAnn fuel (some q) with
            | none => none
            | some v => some (.map key v)
    | "Option" =>
      match params with
      | p :: _ =>
        match typeFromAnn fuel (some p) with
        | none => none
        | some e => some (.option e)
      | [] => some (.option .any)
    | "Result" =>
      match params with
      | [] => some (.result .any .str)
      | p :: rest =>
        match typeFromAnn fuel (some p) with
        | none => none
        | some v =>
          match rest with
          | [] => some (.result v .str)
          | q :: _ =>
            match typeFromAnn fuel (some q) with
            | none => none
            | some er => some (.result v er)
    | "Mutable" =>
      match params with
      | p :: _ =>
        match typeFromAnn fuel (some p) with
        | none => none
        | some e => some (.mutable e)
      | [] => some (.mutable .any)
    | _ => some (.structT name [])

/-- TypeChecker state from checker.go: the scope chain (innermost frame
first, mirroring the parent-linked TypeEnvironment), the struct and
function registries, and the accumulated error strings. -/
structure TC : Type where
  env : List (List (String × Ty))
  structs : List (String × List (String × Ty))
  functions : List (String × (List Ty × Ty))
  errors : List String

/-- TypeEnvironment.Get: search the scope chain innermost first. -/
def tcGet : List (List (String × Ty)) → String → Option Ty
  | [], _ => none
  | frame :: rest, name =>
    match assocGet frame name with
    | some t => some t
    | none => tcGet rest name

/-- TypeEnvironment.Set on the current (innermost) scope. -/
def tcSet (tc : TC) (name : String) (t : Ty) : TC :=
  match tc.env with
  | [] => { tc with env := [[(name, t)]] }
  | frame :: rest => { tc with env := assocSet frame name t :: rest }

/-- addError from checker.go. -/
def tcAddError (tc : TC) (msg : String) : TC :=
  { tc with errors := tc.errors ++ [msg] }

/-- NewTypeChecker from checker.go: one global scope pre-seeded with the
built-in function types. -/
def newTypeChecker : TC :=
  { env := [[
      ("print", .func [.any] .null),
      ("println", .func [.any] .null),
      ("range", .func [.integer, .integer] (.list .integer)),
      ("len", .func [.any] .integer),
      ("type", .func [.any] .str),
      ("str", .func [.any] .str),
      ("int", .func [.any] .integer),
      ("float", .func [.any] .float)]],
    structs := [], functions := [], errors := [] }

/-- isAssignable from checker.go: Any is compatible on either side, a
Mutable actual is unwrapped, Option and Result compare leniently on their
payload types, everything else falls back to Equals. -/
def isAssignable (fuel : Nat) (expected actual : Ty) : Bool :=
  match fuel with
  | 0 => false
  | fuel + 1 =>
    match expected, actual with
    | .any, _ => true
    | _, .any => true
    | _, .mutable inner => isAssignable fuel expected inner
    | .option e1, .option e2 => isAssignable fuel e1 e2
    | .result v1 _, .result v2 _ => isAssignable fuel v1 v2
    | _, _ => tyEquals expected actual

/-- isNumeric from checker.go. -/
def isNumeric : Ty → Bool
  | .any => true
  | .mutable e => isNumeric e
  | .integer => true
  | .float => true
  | _ => false

/-- isInteger from checker.go. -/
def isIntegerTy : Ty → Bool
  | .any => true
  | .mutable e => isIntegerTy e
  | .integer => true
  | _ => false

/-- isString from checker.go. -/
def isStringTy : Ty → Bool
  | .any => true
  | .mutable e => isStringTy e
  | .str => true
  | _ => false

/-- isBooleanCompatible from checker.go. -/
def isBooleanCompatible : Ty → Bool
  | .any => true
  | .mutable e => isBooleanCompatible e
  | .boolean => true
  | _ => false

/-- isComparable from checker.go. -/
def isComparable (a b : Ty) : Bool :=
  match a, b with
  | .any, _ => true
  | _, .any => true
  | a1, b1 =>
    let a2 := match a1 with | .mutable e => e | t => t
    let b2 := match b1 with | .mutable e => e | t => t
    (isNumeric a2 && isNumeric b2) || (isStringTy a2 && isStringTy b2)

/-- collectStruct from checker.go. -/
def collectStruct (fuel : Nat) (tc : TC) (name : String)
    (fields : List (String × Option TypeAnn)) : Option TC :=
  let rec go : Nat → List (String × Option TypeAnn) → List (String × Ty) →
      Option (List (String × Ty))
    | 0, _, _ => none
    | _ + 1, [], acc => some acc
    | fuel2 + 1, (fname, fann) :: rest, acc =>
      match typeFromAnn fuel2 fann with
      | none => none
      | some t => go fuel2 rest (assocSet acc fname t)
  match go fuel fields [] with
  | none => none
  | some fieldTys =>
    let tc1 := { tc with structs := assocSet tc.structs name fieldTys }
    some (tcSet tc1 name (.structT name fieldTys))

/-- collectFunction from checker.go: record the function's parameter and
return types (from the annotations, Any when absent) in the function
registry and the scope. -/
def collectFunction (fuel : Nat) (tc : TC) (name : String)
    (params : List (String × Option TypeAnn)) (retType : Option TypeAnn) : Option TC :=
  let rec go : Nat → List (String × Option TypeAnn) → List Ty → Option (List Ty)
    | 0, _, _ => none
    | _ + 1, [], acc => some acc.reverse
    | fuel2 + 1, (_, pann) :: rest, acc =>
      match typeFromAnn fuel2 pann with
      | none => none
      | some t => go fuel2 rest (t :: acc)
  match go fuel params [] with
  | none => none
  | some paramTys =>
    match typeFromAnn fuel retType with
    | none => none
    | some retTy =>
      let tc1 := { tc with functions := assocSet tc.functions name (paramTys, retTy) }
      some (tcSet tc1 name (.func paramTys retTy))

/-- collectExtend from checker.go: collect every method like a top-level
function. -/
def collectExtend (fuel : Nat) (tc : TC)
    (methods : List (String × List (String × Option TypeAnn) × Option TypeAnn × List Stmt)) :
    Option TC :=
  match fuel with
  | 0 => none
  | fuel + 1 =>
    match methods with
    | [] => some tc
    | m :: rest =>
      match collectFunction fuel tc m.1 m.2.1 m.2.2.1 with
      | none => none
      | some tc1 => collectExtend fuel tc1 rest

/-- checkIdentifier from checker.go. -/
def checkIdentifier (name : String) (tc : TC) : Ty × TC :=
  match tcGet tc.env name with
  | some t => (t, tc)
  | none => (.any, tcAddError tc ("undefined: " ++ name))

/-- The numeric result-type computation of checkInfixExpression: Float if
either operand is Float, else Integer. -/
def numericResultTy (leftType rightType : Ty) : Ty :=
  match leftType with
  | .float => .float
  | _ => match rightType with | .float => .float | _ => .integer

mutual

/-- checkStatement from checker.go.  Every function of this mutual block
consumes one unit of fuel on entry; none means the fuel ran out. -/
def checkStatement : Nat → Stmt → TC → Option (Ty × TC)
  | 0, _, _ => none
  | fuel + 1, s, tc =>
    match s with
    | .defStmt name typeHint value => checkDefStatement fuel name typeHint value tc
    | .funcStmt name params retType body =>
      checkFunctionStatement fuel name params retType body tc
    | .returnStmt value => checkReturnStatement fuel value tc
    | .exprStmt e => checkExpression fuel e tc
    | .whileStmt cond body => checkWhileStatement fuel cond body tc
    | .forStmt varName iterable body => checkForStatement fuel varName iterable body tc
    | .structStmt name _ =>
      some ((assocGet tc.structs name).elim Ty.any (fun fs => .structT name fs), tc)
    | .extendStmt typeName methods => checkExtendStatement fuel typeName methods tc
    | .importStmt _ => some (.null, tc)
    | .breakStmt => some (.null, tc)
    | .continueStmt => some (.null, tc)
    | .blockStmt stmts =>
      -- the Go checkStatement switch has no BlockStatement case and
      -- returns AnyType for it
      match stmts with
      | _ => some (.any, tc)
termination_by structural fuel => fuel

/-- checkDefStatement from checker.go. -/
def checkDefStatement : Nat → String → Option TypeAnn → Expr → TC → Option (Ty × TC)
  | 0, _, _, _, _ => none
  | fuel + 1, name, typeHint, value, tc =>
    match checkExpression fuel value tc with
    | none => none
    | some (valueType, tc1) =>
      match typeHint with
      | some hint =>
        match typeFromAnn fuel (some hint) with
        | none => none
        | some expectedType =>
          let tc2 :=
            if !isAssignable fuel expectedType valueType then
              tcAddError tc1 ("cannot assign " ++ tyString valueType ++
                " to variable of type " ++ tyString expectedType)
            else tc1
          some (expectedType, tcSet tc2 name expectedType)
      | none => some (valueType, tcSet tc1 name valueType)
termination_by structural fuel => fuel

/-- checkFunctionStatement from checker.go: look the collected type up,
check the body in a child scope with the parameters bound; the body's
return statements are checked against the declared return type.  A
function statement that was never collected (the source would fault on a
nil map entry) is outside the embedding. -/
def checkFunctionStatement : Nat → String → List (String × Option TypeAnn) →
    Option TypeAnn → List Stmt → TC → Option (Ty × TC)
  | 0, _, _, _, _, _ => none
  | fuel + 1, name, params, _, body, tc =>
    match assocGet tc.functions name with
    | none => none
    | some (paramTys, retTy) =>
      let inner : TC := { tc with env := [] :: tc.env }
      let inner1 := (params.zip paramTys).foldl
        (fun acc p => tcSet acc p.1.1 p.2) inner
      match checkBlockStatement fuel body (some retTy) inner1 with
      | none => none
      | some (_, tc1) =>
        some (.func paramTys retTy, { tc1 with env := tc1.env.tail })
termination_by structural fuel => fuel

/-- checkReturnStatement from checker.go. -/
def checkReturnStatement : Nat → Option Expr → TC → Option (Ty × TC)
  | 0, _, _ => none
  | fuel + 1, value, tc =>
    match value with
    | none => some (.null, tc)
    | some v => checkExpression fuel v tc
termination_by structural fuel => fuel

/-- checkWhileStatement from checker.go. -/
def checkWhileStatement : Nat → Expr → List Stmt → TC → Option (Ty × TC)
  | 0, _, _, _ => none
  | fuel + 1, cond, body, tc =>
    match checkExpression fuel cond tc with
    | none => none
    | some (condType, tc1) =>
      let tc2 :=
        if !isBooleanCompatible condType then
          tcAddError tc1 "while condition must be a boolean expression"
        else tc1
      let inner : TC := { tc2 with env := [] :: tc2.env }
      match checkBlockStatement fuel body none inner with
      | none => none
      | some (_, tc3) => some (.null, { tc3 with env := tc3.env.tail })
termination_by structural fuel => fuel

/-- checkForStatement from checker.go. -/
def checkForStatement : Nat → String → Expr → List Stmt → TC → Option (Ty × TC)
  | 0, _, _, _, _ => none
  | fuel + 1, varName, iterable, body, tc =>
    match checkExpression fuel iterable tc with
    | none => none
    | some (iterType, tc1) =>
      match iterType with
      | .list elemTy =>
        let inner : TC := { tc1 with env := [] :: tc1.env }
        let inner1 := tcSet inner varName elemTy
        match checkBlockStatement fuel body none inner1 with
        | none => none
        | some (_, tc2) => some (.null, { tc2 with env := tc2.env.tail })
      | _ =>
        some (.null, tcAddError tc1 ("cannot iterate over " ++ tyString iterType))
termination_by structural fuel => fuel

/-- checkExtendStatement from checker.go: each method is checked with
this bound to the extended struct type (or Any when the type is unknown)
and its parameters bound from the collected function type. -/
def checkExtendStatement : Nat → String →
    List (String × List (String × Option TypeAnn) × Option TypeAnn × List Stmt) →
    TC → Option (Ty × TC)
  | 0, _, _, _ => none
  | fuel + 1, typeName, methods, tc =>
    checkExtendMethods fuel typeName methods tc
termination_by structural fuel => fuel

/-- Loop of checkExtendStatement over the methods. -/
def checkExtendMethods : Nat → String →
    List (String × List (String × Option TypeAnn) × Option TypeAnn × List Stmt) →
    TC → Option (Ty × TC)
  | 0, _, _, _ => none
  | fuel + 1, typeName, methods, tc =>
    match methods with
    | [] => some (.null, tc)
    | (mname, mparams, _, mbody) :: rest =>
      let thisTy : Ty :=
        match assocGet tc.structs typeName with
        | some fieldTys => .structT typeName fieldTys
        | none => .any
      let inner : TC := { tc with env := [] :: tc.env }
      let inner1 := tcSet inner "this" thisTy
      match assocGet tc.functions mname with
      | some (paramTys, retTy) =>
        let inner2 := (mparams.zip paramTys).foldl
          (fun acc p => tcSet acc p.1.1 p.2) inner1
        match checkBlockStatement fuel mbody (some retTy) inner2 with
        | none => none
        | some (_, tc1) =>
          checkExtendMethods fuel typeName rest { tc1 with env := tc1.env.tail }
      | none =>
        -- fnType == nil: the body is skipped (cannot happen after the
        -- collection pass)
        checkExtendMethods fuel typeName rest { inner1 with env := inner1.env.tail }
termination_by structural fuel => fuel

/-- checkBlockStatement from checker.go: check every statement, and check
each return statement's expression against the expected return type when
one is given. -/
def checkBlockStatement : Nat → List Stmt → Option Ty → TC → Option (Ty × TC)
  | 0, _, _, _ => none
  | fuel + 1, stmts, expectedReturn, tc =>
    checkBlockLoop fuel stmts expectedReturn .null tc
termination_by structural fuel => fuel

/-- Loop of checkBlockStatement, with the last type as accumulator. -/
def checkBlockLoop : Nat → List Stmt → Option Ty → Ty → TC → Option (Ty × TC)
  | 0, _, _, _, _ => none
  | fuel + 1, stmts, expectedReturn, lastType, tc =>
    match stmts with
    | [] => some (lastType, tc)
    | s :: rest =>
      match checkStatement fuel s tc with
      | none => none
      | some (t, tc1) =>
        match s, expectedReturn with
        | .returnStmt value, some expected =>
          match checkReturnExprType fuel value tc1 with
          | none => none
          | some (retType, tc2) =>
            let tc3 :=
              if !isAssignable fuel expected retType then
                tcAddError tc2 ("cannot return " ++ tyString retType ++
                  " from function expecting " ++ tyString expected)
              else tc2
            checkBlockLoop fuel rest expectedReturn t tc3
        | _, _ => checkBlockLoop fuel rest expectedReturn t tc1
termination_by structural fuel => fuel

/-- The checkExpression(ret.Value) call inside checkBlockStatement: a nil
return value checks as Null (checkExpression's nil guard). -/
def checkReturnExprType : Nat → Option Expr → TC → Option (Ty × TC)
  | 0, _, _ => none
  | fuel + 1, value, tc =>
    match value with
    | none => some (.null, tc)
    | some v => checkExpression fuel v tc
termination_by structural fuel => fuel

/-- checkExpression from checker.go, dispatching to the per-node checks. -/
def checkExpression : Nat → Expr → TC → Option (Ty × TC)
  | 0, _, _ => none
  | fuel + 1, e, tc =>
    match e with
    | .intLit _ _ => some (.integer, tc)
    | .strLit _ => some (.str, tc)
    | .boolLit _ => some (.boolean, tc)
    | .ident name => some (checkIdentifier name tc)
    | .prefixE op right => checkPrefixExpression fuel op right tc
    | .infixE left op right => checkInfixExpression fuel left op right tc
    | .assignE name value => checkAssignmentExpression fuel name value tc
    | .ifE cond cons alt => checkIfExpression fuel cond cons alt tc
    | .funcLit params _ =>
      -- checkFunctionLiteral: lambda parameters and result are Any
      some (.func (params.map (fun _ => Ty.any)) .any, tc)
    | .callE func args => checkCallExpression fuel func args tc
    | .memberE obj member => checkMemberExpression fuel obj member tc
    | .indexE left idx => checkIndexExpression fuel left idx tc
    | .listLit elems => checkListLiteral fuel elems tc
    | .mapLit pairs => checkMapLiteral fuel pairs tc
    | .structLit name fields => checkStructLiteral fuel name fields tc
    | .withE obj updates => checkWithExpression fuel obj updates tc
    | .optionE isSome value => checkOptionExpression fuel isSome value tc
    | .resultE isOk value => checkResultExpression fuel isOk value tc
    | .mutableE typeHint value => checkMutableExpression fuel typeHint value tc
termination_by structural fuel => fuel

/-- checkPrefixExpression from checker.go. -/
def checkPrefixExpression : Nat → String → Expr → TC → Option (Ty × TC)
  | 0, _, _, _ => none
  | fuel + 1, op, right, tc =>
    match checkExpression fuel right tc with
    | none => none
    | some (rightType, tc1) =>
      match op with
      | "-" =>
        let tc2 :=
          if !isNumeric rightType then
            tcAddError tc1 ("operator - not defined for " ++ tyString rightType)
          else tc1
        some (rightType, tc2)
      | "not" => some (.boolean, tc1)
      | _ => some (.any, tc1)
termination_by structural fuel => fuel

/-- checkInfixExpression from checker.go. -/
def checkInfixExpression : Nat → Expr → String → Expr → TC → Option (Ty × TC)
  | 0, _, _, _, _ => none
  | fuel + 1, left, op, right, tc =>
    match checkExpression fuel left tc with
    | none => none
    | some (leftType, tc1) =>
      match checkExpression fuel right tc1 with
      | none => none
      | some (rightType, tc2) =>
        if op = "+" || op = "-" || op = "*" || op = "/" || op = "%" then
          if !isNumeric leftType || !isNumeric rightType then
            if op = "+" && isStringTy leftType && isStringTy rightType then
              some (.str, tc2)
            else
              let tc3 := tcAddError tc2 ("operator " ++ op ++ " not defined for " ++
                tyString leftType ++ " and " ++ tyString rightType)
              some (numericResultTy leftType rightType, tc3)
          else
            some (numericResultTy leftType rightType, tc2)
        else if op = ">" || op = "<" || op = ">=" || op = "<=" then
          let tc3 :=
            if !isComparable leftType rightType then
              tcAddError tc2 ("cannot compare " ++ tyString leftType ++ " and " ++
                tyString rightType)
            else tc2
          some (.boolean, tc3)
        else if op = "and" || op = "or" then some (.boolean, tc2)
        else if op = "is" then some (.boolean, tc2)
        else some (.any, tc2)
termination_by structural fuel => fuel

/-- checkAssignmentExpression from checker.go: the target must be bound
and Mutable, and the assigned type must fit its element type. -/
def checkAssignmentExpression : Nat → String → Expr → TC → Option (Ty × TC)
  | 0, _, _, _ => none
  | fuel + 1, name, value, tc =>
    match tcGet tc.env name with
    | none => some (.any, tcAddError tc ("undefined: " ++ name))
    | some varType =>
      match varType with
      | .mutable elemTy =>
        match checkExpression fuel value tc with
        | none => none
        | some (valueType, tc1) =>
          let tc2 :=
            if !isAssignable fuel elemTy valueType then
              tcAddError tc1 ("cannot assign " ++ tyString valueType ++
                " to Mutable[" ++ tyString elemTy ++ "]")
            else tc1
          some (elemTy, tc2)
      | _ => some (.any, tcAddError tc (name ++ " is not mutable"))
termination_by structural fuel => fuel

/-- checkIfExpression from checker.go. -/
def checkIfExpression : Nat → Expr → List Stmt → Option (List Stmt) → TC →
    Option (Ty × TC)
  | 0, _, _, _, _ => none
  | fuel + 1, cond, cons, alt, tc =>
    match checkExpression fuel cond tc with
    | none => none
    | some (condType, tc1) =>
      let tc2 :=
        if !isBooleanCompatible condType then
          tcAddError tc1 "if condition must be a boolean expression"
        else tc1
      let inner : TC := { tc2 with env := [] :: tc2.env }
      match checkBlockStatement fuel cons none inner with
      | none => none
      | some (consType, tc3) =>
        let tc4 : TC := { tc3 with env := tc3.env.tail }
        match alt with
        | some altBlock =>
          let inner2 : TC := { tc4 with env := [] :: tc4.env }
          match checkBlockStatement fuel altBlock none inner2 with
          | none => none
          | some (_, tc5) =>
            some (consType, { tc5 with env := tc5.env.tail })
        | none => some (consType, tc4)
termination_by structural fuel => fuel

/-- checkCallExpression from checker.go: an Any callee just checks the
arguments; a struct-type callee is a constructor; argument arity and type
mismatches are deliberately not reported (the source's commented-out
permissiveness). -/
def checkCallExpression : Nat → Expr → List Expr → TC → Option (Ty × TC)
  | 0, _, _, _ => none
  | fuel + 1, func, args, tc =>
    match checkExpression fuel func tc with
    | none => none
    | some (fnType, tc1) =>
      match fnType with
      | .any =>
        match checkArgList fuel args tc1 with
        | none => none
        | some tc2 => some (.any, tc2)
      | .func _ retTy =>
        match checkArgList fuel args tc1 with
        | none => none
        | some tc2 => some (retTy, tc2)
      | .structT n fs =>
        some (.structT n fs, tc1)
      | _ =>
        match checkArgList fuel args tc1 with
        | none => none
        | some tc2 => some (.any, tc2)
termination_by structural fuel => fuel

/-- The argument-checking loops of checkCallExpression. -/
def checkArgList : Nat → List Expr → TC → Option TC
  | 0, _, _ => none
  | fuel + 1, args, tc =>
    match args with
    | [] => some tc
    | a :: rest =>
      match checkExpression fuel a tc with
      | none => none
      | some (_, tc1) => checkArgList fuel rest tc1
termination_by structural fuel => fuel

/-- checkMemberExpression from checker.go: struct fields type as
declared, unknown members and every non-struct receiver are Any. -/
def checkMemberExpression : Nat → Expr → String → TC → Option (Ty × TC)
  | 0, _, _, _ => none
  | fuel + 1, obj, member, tc =>
    match checkExpression fuel obj tc with
    | none => none
    | some (objType0, tc1) =>
      let objType := match objType0 with | .mutable e => e | t => t
      match objType with
      | .structT _ fields =>
        match assocGet fields member with
        | some fieldType => some (fieldType, tc1)
        | none => some (.any, tc1)
      | _ => some (.any, tc1)
termination_by structural fuel => fuel

/-- checkIndexExpression from checker.go. -/
def checkIndexExpression : Nat → Expr → Expr → TC → Option (Ty × TC)
  | 0, _, _, _ => none
  | fuel + 1, left, idx, tc =>
    match checkExpression fuel left tc with
    | none => none
    | some (leftType0, tc1) =>
      match checkExpression fuel idx tc1 with
      | none => none
      | some (indexType, tc2) =>
        let leftType := match leftType0 with | .mutable e => e | t => t
        match leftType with
        | .list elemTy =>
          let tc3 :=
            if !isIntegerTy indexType then
              tcAddError tc2 "list index must be an integer"
            else tc2
          some (elemTy, tc3)
        | .map _ valTy =>
          let tc3 :=
            if !isStringTy indexType then
              tcAddError tc2 "map key must be a string"
            else tc2
          some (valTy, tc3)
        | .str =>
          let tc3 :=
            if !isIntegerTy indexType then
              tcAddError tc2 "string index must be an integer"
            else tc2
          some (.str, tc3)
        | .any => some (.any, tc2)
        | _ => some (.any, tc2)
termination_by structural fuel => fuel

/-- checkListLiteral from checker.go: the first element fixes the element
type; later elements must be assignable to it unless it is Any. -/
def checkListLiteral : Nat → List Expr → TC → Option (Ty × TC)
  | 0, _, _ => none
  | fuel + 1, elems, tc =>
    match elems with
    | [] => some (.list .any, tc)
    | first :: rest =>
      match checkExpression fuel first tc with
      | none => none
      | some (elemType, tc1) =>
        match checkListRest fuel elemType rest tc1 with
        | none => none
        | some tc2 => some (.list elemType, tc2)
termination_by structural fuel => fuel

/-- Loop of checkListLiteral over the remaining elements. -/
def checkListRest : Nat → Ty → List Expr → TC → Option TC
  | 0, _, _, _ => none
  | fuel + 1, elemType, elems, tc =>
    match elems with
    | [] => some tc
    | e :: rest =>
      match checkExpression fuel e tc with
      | none => none
      | some (t, tc1) =>
        let tc2 :=
          if !isAssignable fuel elemType t then
            match elemType with
            | .any => tc1
            | _ => tcAddError tc1 "list elements must have the same type"
          else tc1
        checkListRest fuel elemType rest tc2
termination_by structural fuel => fuel

/-- checkMapLiteral from checker.go: an empty literal is
Map[String, Any]; otherwise only the first value is checked for the value
type (the source breaks after one iteration). -/
def checkMapLiteral : Nat → List (Expr × Expr) → TC → Option (Ty × TC)
  | 0, _, _ => none
  | fuel + 1, pairs, tc =>
    match pairs with
    | [] => some (.map .str .any, tc)
    | (_, v) :: _ =>
      match checkExpression fuel v tc with
      | none => none
      | some (valueType, tc1) => some (.map .str valueType, tc1)
termination_by structural fuel => fuel

/-- checkStructLiteral from checker.go: unknown struct names and unknown
fields are errors; field initialisers must fit the declared field types. -/
def checkStructLiteral : Nat → String → List (String × Expr) → TC → Option (Ty × TC)
  | 0, _, _, _ => none
  | fuel + 1, name, fields, tc =>
    match assocGet tc.structs name with
    | none => some (.any, tcAddError tc ("undefined struct: " ++ name))
    | some fieldTys =>
      match checkFieldInits fuel name fieldTys fields tc with
      | none => none
      | some tc1 => some (.structT name fieldTys, tc1)
termination_by structural fuel => fuel

/-- The field-checking loop shared by checkStructLiteral and
checkWithExpression. -/
def checkFieldInits : Nat → String → List (String × Ty) → List (String × Expr) → TC →
    Option TC
  | 0, _, _, _, _ => none
  | fuel + 1, structName, fieldTys, fields, tc =>
    match fields with
    | [] => some tc
    | (fname, fexpr) :: rest =>
      match assocGet fieldTys fname with
      | none =>
        checkFieldInits fuel structName fieldTys rest
          (tcAddError tc ("undefined field " ++ fname ++ " on " ++ structName))
      | some expectedType =>
        match checkExpression fuel fexpr tc with
        | none => none
        | some (actualType, tc1) =>
          let tc2 :=
            if !isAssignable fuel expectedType actualType then
              tcAddError tc1 ("cannot assign " ++ tyString actualType ++
                " to field " ++ fname ++ " of type " ++ tyString expectedType)
            else tc1
          checkFieldInits fuel structName fieldTys rest tc2
termination_by structural fuel => fuel

/-- checkWithExpression from checker.go. -/
def checkWithExpression : Nat → Expr → List (String × Expr) → TC → Option (Ty × TC)
  | 0, _, _, _ => none
  | fuel + 1, obj, updates, tc =>
    match checkExpression fuel obj tc with
    | none => none
    | some (objType0, tc1) =>
      let objType := match objType0 with | .mutable e => e | t => t
      match objType with
      | .structT name fieldTys =>
        match checkFieldInits fuel name fieldTys updates tc1 with
        | none => none
        | some tc2 => some (.structT name fieldTys, tc2)
      | _ => some (.any, tcAddError tc1 "with can only be used on structs")
termination_by structural fuel => fuel

/-- checkOptionExpression from checker.go. -/
def checkOptionExpression : Nat → Bool → Option Expr → TC → Option (Ty × TC)
  | 0, _, _, _ => none
  | fuel + 1, isSome, value, tc =>
    if !isSome then some (.option .any, tc)
    else
      match value with
      | none => some (.option .any, tc)
      | some v =>
        match checkExpression fuel v tc with
        | none => none
        | some (elemType, tc1) => some (.option elemType, tc1)
termination_by structural fuel => fuel

/-- checkResultExpression from checker.go. -/
def checkResultExpression : Nat → Bool → Expr → TC → Option (Ty × TC)
  | 0, _, _, _ => none
  | fuel + 1, isOk, value, tc =>
    match checkExpression fuel value tc with
    | none => none
    | some (valueType, tc1) =>
      if isOk then some (.result valueType .str, tc1)
      else some (.result .any valueType, tc1)
termination_by structural fuel => fuel

/-- checkMutableExpression from checker.go: the type hint, when present,
overrides the inferred element type. -/
def checkMutableExpression : Nat → Option TypeAnn → Expr → TC → Option (Ty × TC)
  | 0, _, _, _ => none
  | fuel + 1, typeHint, value, tc =>
    match checkExpression fuel value tc with
    | none => none
    | some (elemType, tc1) =>
      match typeHint with
      | some hint =>
        match typeFromAnn fuel (some hint) with
        | none => none
        | some t => some (.mutable t, tc1)
      | none => some (.mutable elemType, tc1)
termination_by structural fuel => fuel

end

/-- Check from checker.go: the collection pass over top-level structs,
functions and extend blocks, then the verification pass; the result is the
first accumulated error, or none when the program is accepted. -/
def TypeChecker.Check (fuel : Nat) (prog : List Stmt) : Option (Option String) :=
  let rec collect : Nat → List Stmt → TC → Option TC
    | 0, _, _ => none
    | _ + 1, [], tc => some tc
    | fuel1 + 1, s :: rest, tc =>
      match s with
      | .structStmt name fields =>
        match collectStruct fuel1 tc name fields with
        | none => none
        | some tc1 => collect fuel1 rest tc1
      | .funcStmt name params retType _ =>
        match collectFunction fuel1 tc name params retType with
        | none => none
        | some tc1 => collect fuel1 rest tc1
      | .extendStmt _ methods =>
        match collectExtend fuel1 tc methods with
        | none => none
        | some tc1 => collect fuel1 rest tc1
      | _ => collect fuel1 rest tc
  let rec verify : Nat → List Stmt → TC → Option TC
    | 0, _, _ => none
    | _ + 1, [], tc => some tc
    | fuel1 + 1, s :: rest, tc =>
      match checkStatement fuel1 s tc with
      | none => none
      | some (_, tc1) => verify fuel1 rest tc1
  match collect fuel prog newTypeChecker with
  | none => none
  | some tc =>
    match verify fuel prog tc with
    | none => none
    | some tc1 => some tc1.errors.head?

/-- TokenType from token.go. -/
inductive TokType : Type where
  | ILLEGAL | EOF | NEWLINE
  | IDENT | INTEGER | FLOAT | STRING
  | DEF | FUN | STRUCT | EXTEND | IF | ELSE | WHILE | FOR | IN | RETURN
  | MATCH | SOME | NONE | OK | ERROR | IMPORT | AND | OR | NOT | IS
  | BREAK | CONTINUE | MUTABLE | TRUE | FALSE
  | ASSIGN | ASSIGN_MUT | PLUS | MINUS | MULTIPLY | DIVIDE | MODULO
  | GT | LT | GTE | LTE | ARROW
  | LPAREN | RPAREN | LBRACE | RBRACE | LBRACKET | RBRACKET
  | COMMA | COLON | DOT
deriving DecidableEq

/-- The tokenNames table of token.go (TokenType.String). -/
def tokTypeString : TokType → String
  | .ILLEGAL => "ILLEGAL"
  | .EOF => "EOF"
  | .NEWLINE => "NEWLINE"
  | .IDENT => "IDENT"
  | .INTEGER => "INTEGER"
  | .FLOAT => "FLOAT"
  | .STRING => "STRING"
  | .DEF => "DEF"
  | .FUN => "FUN"
  | .STRUCT => "STRUCT"
  | .EXTEND => "EXTEND"
  | .IF => "IF"
  | .ELSE => "ELSE"
  | .WHILE => "WHILE"
  | .FOR => "FOR"
  | .IN => "IN"
  | .RETURN => "RETURN"
  | .MATCH => "MATCH"
  | .SOME => "SOME"
  | .NONE => "NONE"
  | .OK => "OK"
  | .ERROR => "ERROR"
  | .IMPORT => "IMPORT"
  | .AND => "AND"
  | .OR => "OR"
  | .NOT => "NOT"
  | .IS => "IS"
  | .BREAK => "BREAK"
  | .CONTINUE => "CONTINUE"
  | .MUTABLE => "MUTABLE"
  | .TRUE => "TRUE"
  | .FALSE => "FALSE"
  | .ASSIGN => "="
  | .ASSIGN_MUT => "=="
  | .PLUS => "+"
  | .MINUS => "-"
  | .MULTIPLY => "*"
  | .DIVIDE => "/"
  | .MODULO => "%"
  | .GT => ">"
  | .LT => "<"
  | .GTE => ">="
  | .LTE => "<="
  | .ARROW => "->"
  | .LPAREN => "("
  | .RPAREN => ")"
  | .LBRACE => "\x7b"
  | .RBRACE => "\x7d"
  | .LBRACKET => "["
  | .RBRACKET => "]"
  | .COMMA => ","
  | .COLON => ":"
  | .DOT => "."

/-- Token from token.go, with the 1-based line and column of its first
character. -/
structure Token : Type where
  ttype : TokType
  literal : String
  line : Nat
  column : Nat
deriving DecidableEq

/-- LookupIdent and the keywords table from token.go. -/
def LookupIdent (ident : String) : TokType :=
  match ident with
  | "def" => .DEF
  | "fun" => .FUN
  | "struct" => .STRUCT
  | "extend" => .EXTEND
  | "if" => .IF
  | "else" => .ELSE
  | "while" => .WHILE
  | "for" => .FOR
  | "in" => .IN
  | "return" => .RETURN
  | "match" => .MATCH
  | "Some" => .SOME
  | "None" => .NONE
  | "Ok" => .OK
  | "Error" => .ERROR
  | "import" => .IMPORT
  | "and" => .AND
  | "or" => .OR
  | "not" => .NOT
  | "is" => .IS
  | "break" => .BREAK
  | "continue" => .CONTINUE
  | "Mutable" => .MUTABLE
  | "true" => .TRUE
  | "false" => .FALSE
  | _ => .IDENT

/-- isLetter from the lexer source: ASCII letters and the underscore. -/
def isLetter (c : Char) : Bool :=
  (c ≥ 'a' && c ≤ 'z') || (c ≥ 'A' && c ≤ 'Z') || c = '_'

/-- isDigit from the lexer source: ASCII digits. -/
def isDigit (c : Char) : Bool :=
  c ≥ '0' && c ≤ '9'

/-- Lexer state.  The Go Lexer carries the whole input with pos/readPos/ch
cursors; here the consumed prefix is dropped instead, so input is the
suffix starting at the current char (Go ch is the head; an empty list is
Go ch = 0), with the same line counter and the column of the current
char.  NewLexer starts with line 1, column 0, then readChar makes the
column 1. -/
structure LexSt : Type where
  input : List Char
  line : Nat
  column : Nat

/-- peekChar of the lexer: the char after the current one, 0 at the end of
the input. -/
def peekChar : List Char → Char
  | _ :: d :: _ => d
  | _ => Char.ofNat 0

/-- readIdentifier from the lexer source: the maximal run of letters
(underscore included) and digits starting at the current char.  Returns
the run, the remaining input, and the number of chars consumed (the
readChar count, which drives the column). -/
def readIdentifier : List Char → List Char × List Char × Nat
  | [] => ([], [], 0)
  | c :: rest =>
    if isLetter c || isDigit c then
      let (chars, remaining, n) := readIdentifier rest
      (c :: chars, remaining, n + 1)
    else
      ([], c :: rest, 0)

/-- The digit loop of readNumber (for isDigit of ch, readChar): the
maximal digit run, the remaining input, and the chars consumed. -/
def readDigits : List Char → List Char × List Char × Nat
  | [] => ([], [], 0)
  | c :: rest =>
    if isDigit c then
      let (chars, remaining, n) := readDigits rest
      (c :: chars, remaining, n + 1)
    else
      ([], c :: rest, 0)

/-- readNumber from the lexer source: a digit run makes INTEGER; when the
char after the run is a dot whose peeked successor is another digit, the
dot and a second digit run extend the literal and the type is FLOAT.
Returns the literal, the token type, the remaining input, and the chars
consumed. -/
def readNumber (input : List Char) : List Char × TokType × List Char × Nat :=
  let (chars, remaining, n) := readDigits input
  if remaining.headD (Char.ofNat 0) = '.' && isDigit (peekChar remaining) then
    let (chars2, remaining2, n2) := readDigits remaining.tail
    (chars ++ '.' :: chars2, .FLOAT, remaining2, n + 1 + n2)
  else
    (chars, .INTEGER, remaining, n)

/-- readString from the lexer source, applied to the input after the
opening quote: collect chars until the closing quote or the end of the
input; a backslash whose peeked successor is not 0 keeps both the
backslash and that char verbatim (escapes are stored undecoded).  Returns
the literal, the remaining input still starting at the closing quote (the
quote is consumed by the readChar at the bottom of NextToken), and the
chars consumed by the loop.  A literal 0 char stops the loop exactly as
the end of the input does (Go reads ch = 0 for both). -/
def readString : List Char → List Char × List Char × Nat
  | [] => ([], [], 0)
  | c :: rest =>
    if c = '"' || c = Char.ofNat 0 then ([], c :: rest, 0)
    else if c = '\\' && peekChar (c :: rest) ≠ Char.ofNat 0 then
      match rest with
      | [] => ([c], [], 1)
      | d :: rest2 =>
        let (chars, remaining, n) := readString rest2
        (c :: d :: chars, remaining, n + 2)
    else
      let (chars, remaining, n) := readString rest
      (c :: chars, remaining, n + 1)

/-- skipWhitespaceExceptNewline from the lexer source: consume spaces,
tabs and carriage returns.  Returns the remaining input and the chars
consumed. -/
def skipWhitespaceExceptNewline : List Char → List Char × Nat
  | [] => ([], 0)
  | c :: rest =>
    if c = ' ' || c = '\t' || c = '\r' then
      let (remaining, n) := skipWhitespaceExceptNewline rest
      (remaining, n + 1)
    else
      (c :: rest, 0)

/-- skipComment from the lexer source, applied from the first slash of a
// comment: consume chars until a newline (left in the input, becoming a
NEWLINE token), a literal 0 char (left in place, read as the end), or the
end.  Returns the remaining input and the chars consumed. -/
def skipComment : List Char → List Char × Nat
  | [] => ([], 0)
  | c :: rest =>
    if c = '\n' || c = Char.ofNat 0 then (c :: rest, 0)
    else
      let (remaining, n) := skipComment rest
      (remaining, n + 1)

/-- NextToken from the lexer source.  Whitespace except newlines is
skipped first; the token takes the line/column of the char then current.
The switch is mirrored branch for branch and in order: newline; == else
=; +; -> else -; *; a / peeking / skips the comment and recurses, else /;
%; >= else >; <= else <; the delimiters; " reads a string literal, the
closing quote falling to the readChar at the bottom; a 0 char (or the end
of the input) is EOF; the default classifies a letter start through
readIdentifier and token.go's LookupIdent, a digit start through
readNumber (both return without the bottom readChar), and anything else
as ILLEGAL.  The fuel only bounds the comment recursion (the one
self-call); callers pass the input length plus one. -/
def NextToken : Nat → LexSt → Token × LexSt
  | 0, st => (⟨.EOF, "", st.line, st.column⟩, st)
  | fuel + 1, st0 =>
    let (ws, wn) := skipWhitespaceExceptNewline st0.input
    let line := st0.line
    let col := st0.column + wn
    match ws with
    | [] => (⟨.EOF, "", line, col⟩, ⟨[], line, col + 1⟩)
    | c :: rest =>
      if c = '\n' then
        (⟨.NEWLINE, "\n", line, col⟩, ⟨rest, line + 1, 1⟩)
      else if c = '=' then
        if peekChar (c :: rest) = '=' then
          (⟨.ASSIGN_MUT, "==", line, col⟩, ⟨rest.tail, line, col + 2⟩)
        else
          (⟨.ASSIGN, "=", line, col⟩, ⟨rest, line, col + 1⟩)
      else if c = '+' then
        (⟨.PLUS, "+", line, col⟩, ⟨rest, line, col + 1⟩)
      else if c = '-' then
        if peekChar (c :: rest) = '>' then
          (⟨.ARROW, "->", line, col⟩, ⟨rest.tail, line, col + 2⟩)
        else
          (⟨.MINUS, "-", line, col⟩, ⟨rest, line, col + 1⟩)
      else if c = '*' then
        (⟨.MULTIPLY, "*", line, col⟩, ⟨rest, line, col + 1⟩)
      else if c = '/' then
        if peekChar (c :: rest) = '/' then
          let (remaining, n) := skipComment (c :: rest)
          NextToken fuel ⟨remaining, line, col + n⟩
        else
          (⟨.DIVIDE, "/", line, col⟩, ⟨rest, line, col + 1⟩)
      else if c = '%' then
        (⟨.MODULO, "%", line, col⟩, ⟨rest, line, col + 1⟩)
      else if c = '>' then
        if peekChar (c :: rest) = '=' then
          (⟨.GTE, ">=", line, col⟩, ⟨rest.tail, line, col + 2⟩)
        else
          (⟨.GT, ">", line, col⟩, ⟨rest, line, col + 1⟩)
      else if c = '<' then
        if peekChar (c :: rest) = '=' then
          (⟨.LTE, "<=", line, col⟩, ⟨rest.tail, line, col + 2⟩)
        else
          (⟨.LT, "<", line, col⟩, ⟨rest, line, col + 1⟩)
      else if c = '(' then
        (⟨.LPAREN, "(", line, col⟩, ⟨rest, line, col + 1⟩)
      else if c = ')' then
        (⟨.RPAREN, ")", line, col⟩, ⟨rest, line, col + 1⟩)
      else if c = '{' then
        (⟨.LBRACE, "\x7b", line, col⟩, ⟨rest, line, col + 1⟩)
      else if c = '}' then
        (⟨.RBRACE, "\x7d", line, col⟩, ⟨rest, line, col + 1⟩)
      else if c = '[' then
        (⟨.LBRACKET, "[", line, col⟩, ⟨rest, line, col + 1⟩)
      else if c = ']' then
        (⟨.RBRACKET, "]", line, col⟩, ⟨rest, line, col + 1⟩)
      else if c = ',' then
        (⟨.COMMA, ",", line, col⟩, ⟨rest, line, col + 1⟩)
      else if c = ':' then
        (⟨.COLON, ":", line, col⟩, ⟨rest, line, col + 1⟩)
      else if c = '.' then
        (⟨.DOT, ".", line, col⟩, ⟨rest, line, col + 1⟩)
      else if c = '"' then
        let (chars, remaining, n) := readString rest
        (⟨.STRING, String.mk chars, line, col⟩,
          ⟨remaining.tail, line, col + 1 + n + 1⟩)
      else if c = Char.ofNat 0 then
        (⟨.EOF, "", line, col⟩, ⟨rest, line, col + 1⟩)
      else if isLetter c then
        let (chars, remaining, n) := readIdentifier (c :: rest)
        let lit := String.mk chars
        (⟨LookupIdent lit, lit, line, col⟩, ⟨remaining, line, col + n⟩)
      else if isDigit c then
        let (chars, ty, remaining, n) := readNumber (c :: rest)
        (⟨ty, String.mk chars, line, col⟩, ⟨remaining, line, col + n⟩)
      else
        (⟨.ILLEGAL, String.mk [c], line, col⟩, ⟨rest, line, col + 1⟩)

/-- The token stream the parser consumes: parser.go pulls one token per
advance through Lexer.NextToken, and NextToken is a function of the lexer
state alone, so the stream is materialized up front here, up to and
including the first EOF token.  The fuel bounds the token count (every
non-EOF token consumes at least one char, so the input length plus one
suffices). -/
def tokenize : Nat → LexSt → List Token
  | 0, st => [⟨.EOF, "", st.line, st.column⟩]
  | fuel + 1, st =>
    let (tok, st1) := NextToken (st.input.length + 1) st
    match tok.ttype with
    | .EOF => [tok]
    | _ => tok :: tokenize fuel st1

/-- Tokenization of a whole source string, from the initial state NewLexer
builds (line 1; column 0 made 1 by the readChar in the constructor). -/
def lexSource (source : String) : List Token :=
  tokenize (source.length + 1) ⟨source.toList, 1, 1⟩

/-- The precedence levels of parser.go (iota from 1). -/
def LOWEST : Nat := 1

/-- Precedence of mutable assignment. -/
def ASSIGN_PREC : Nat := 2

/-- Precedence of or. -/
def OR_PREC : Nat := 3

/-- Precedence of and. -/
def AND_PREC : Nat := 4

/-- Precedence of is. -/
def IS_PREC : Nat := 5

/-- Precedence of the comparisons. -/
def COMPARE_PREC : Nat := 6

/-- Precedence of + and -. -/
def SUM_PREC : Nat := 7

/-- Precedence of *, / and %. -/
def PRODUCT_PREC : Nat := 8

/-- Precedence of the prefix operators. -/
def PREFIX_PREC : Nat := 9

/-- Precedence of call and member access. -/
def CALL_PREC : Nat := 10

/-- Precedence of indexing. -/
def INDEX_PREC : Nat := 11

/-- The precedences table of parser.go. -/
def precedences : TokType → Option Nat
  | .ASSIGN_MUT => some ASSIGN_PREC
  | .OR => some OR_PREC
  | .AND => some AND_PREC
  | .IS => some IS_PREC
  | .GT => some COMPARE_PREC
  | .LT => some COMPARE_PREC
  | .GTE => some COMPARE_PREC
  | .LTE => some COMPARE_PREC
  | .PLUS => some SUM_PREC
  | .MINUS => some SUM_PREC
  | .MULTIPLY => some PRODUCT_PREC
  | .DIVIDE => some PRODUCT_PREC
  | .MODULO => some PRODUCT_PREC
  | .LPAREN => some CALL_PREC
  | .DOT => some CALL_PREC
  | .LBRACKET => some INDEX_PREC
  | _ => none

/-- Parser state from parser.go: the current and peek tokens, the rest of
the token stream, and the accumulated error strings. -/
structure PState : Type where
  cur : Token
  peek : Token
  rest : List Token
  errors : List String

/-- The EOF token the stream is padded with once exhausted. -/
def eofToken : Token := ⟨.EOF, "", 0, 0⟩

/-- nextToken of the parser: shift peek into current and pull the next
token. -/
def padvance (p : PState) : PState :=
  { cur := p.peek
    peek := p.rest.headD eofToken
    rest := p.rest.tail
    errors := p.errors }

/-- NewParser's initialisation: two advances to fill current and peek. -/
def initParser (toks : List Token) : PState :=
  { cur := toks.headD eofToken
    peek := (toks.drop 1).headD eofToken
    rest := toks.drop 2
    errors := [] }

/-- peekError from parser.go. -/
def peekError (p : PState) (t : TokType) : PState :=
  { p with errors := p.errors ++
      ["line " ++ toString p.peek.line ++ ": expected next token to be " ++
        tokTypeString t ++ ", got " ++ tokTypeString p.peek.ttype ++ " instead"] }

/-- expectPeek from parser.go: advance on a match, record a diagnostic
otherwise. -/
def expectPeek (p : PState) (t : TokType) : Bool × PState :=
  if p.peek.ttype = t then (true, padvance p) else (false, peekError p t)

/-- curPrecedence from parser.go. -/
def curPrecedence (p : PState) : Nat :=
  (precedences p.cur.ttype).getD LOWEST

/-- peekPrecedence from parser.go. -/
def peekPrecedence (p : PState) : Nat :=
  (precedences p.peek.ttype).getD LOWEST

/-- MaxInt64, the bound strconv.ParseInt enforces with bitSize 64. -/
def maxInt64 : Nat := 9223372036854775807

/-- Decimal value of a digit run (the only integer-literal shape the lexer
produces); none on an empty or non-digit string, mirroring a
strconv.ParseInt failure. -/
def digitRunToNatAux (acc : Nat) : List Char → Option Nat
  | [] => some acc
  | c :: rest =>
    if isDigit c then digitRunToNatAux (acc * 10 + (c.toNat - 48)) rest
    else none

/-- Decimal value of a nonempty digit run. -/
def digitRunToNat : List Char → Option Nat
  | [] => none
  | l => digitRunToNatAux 0 l

/-- parseIntegerLiteral from parser.go: strconv.ParseInt on the token
literal (a digit run from the lexer); overflow or a malformed literal is a
diagnostic. -/
def parseIntegerLiteral (p : PState) : Option Expr × PState :=
  match digitRunToNat p.cur.literal.toList with
  | some n =>
    if n ≤ maxInt64 then (some (.intLit (Int.ofNat n) p.cur.literal), p)
    else
      (none, { p with errors := p.errors ++
        ["line " ++ toString p.cur.line ++ ": could not parse \"" ++
          p.cur.literal ++ "\" as integer"] })
  | none =>
    (none, { p with errors := p.errors ++
      ["line " ++ toString p.cur.line ++ ": could not parse \"" ++
        p.cur.literal ++ "\" as integer"] })

/-- parseStringLiteral from parser.go. -/
def parseStringLiteral (p : PState) : Option Expr × PState :=
  (some (.strLit p.cur.literal), p)

/-- parseBooleanLiteral from parser.go. -/
def parseBooleanLiteral (p : PState) : Option Expr × PState :=
  (some (.boolLit (p.cur.ttype = .TRUE)), p)

/-- skipNewlines from parser.go (the fuel bounds the loop). -/
def skipNewlinesP : Nat → PState → PState
  | 0, p => p
  | fuel + 1, p =>
    if p.cur.ttype = .NEWLINE then skipNewlinesP fuel (padvance p) else p

mutual

/-- parseTypeAnn mirrors parseTypeAnnotation from parser.go: a type name
optionally followed by a bracketed, comma-separated type-parameter list,
recursively. -/
def parseTypeAnn : Nat → PState → TypeAnn × PState
  | 0, p => (.mk p.cur.literal [], p)
  | fuel + 1, p =>
    let name := p.cur.literal
    if p.peek.ttype = .LBRACKET then
      let p1 := padvance (padvance p)
      let (params, p2) := parseTypeAnnParams fuel [] p1
      (.mk name params, p2)
    else
      (.mk name [], p)
termination_by structural fuel => fuel

/-- The type-parameter loop of parseTypeAnnotation. -/
def parseTypeAnnParams : Nat → List TypeAnn → PState → List TypeAnn × PState
  | 0, acc, p => (acc.reverse, p)
  | fuel + 1, acc, p =>
    if p.cur.ttype = .RBRACKET then (acc.reverse, p)
    else
      let (param, p1) := parseTypeAnn fuel p
      if p1.peek.ttype = .COMMA then
        parseTypeAnnParams fuel (param :: acc) (padvance (padvance p1))
      else if p1.peek.ttype = .RBRACKET then
        ((param :: acc).reverse, padvance p1)
      else
        ((param :: acc).reverse, p1)
termination_by structural fuel => fuel

end

mutual

/-- parseExpression from parser.go: Pratt parsing — a prefix parse for the
current token, then infix parses while the peek token's precedence exceeds
the binding precedence and the peek token is neither NEWLINE nor EOF.
The prefix parse functions for braces, if, match, Some/None/Ok/Error,
Mutable and float literals are omitted from the embedding (no claim
exercises those constructs); their token kinds take the unregistered-token
diagnostic path. -/
def parseExpression : Nat → Nat → PState → Option Expr × PState
  | 0, _, p => (none, p)
  | fuel + 1, prec, p =>
    let (leftExp, p1) :=
      match p.cur.ttype with
      | .IDENT => parseIdentExpr fuel p
      | .INTEGER => parseIntegerLiteral p
      | .STRING => parseStringLiteral p
      | .TRUE => parseBooleanLiteral p
      | .FALSE => parseBooleanLiteral p
      | .MINUS => parsePrefixExpression fuel p
      | .NOT => parsePrefixExpression fuel p
      | .LPAREN => parseGroupedExpression fuel p
      | .LBRACKET => parseListLiteral fuel p
      | _ =>
        (none, { p with errors := p.errors ++
          ["line " ++ toString p.cur.line ++ ": no prefix parse function for " ++
            tokTypeString p.cur.ttype ++ " found"] })
    match leftExp with
    | none => (none, p1)
    | some l => parseInfixLoop fuel prec l p1
termination_by structural fuel => fuel

/-- The infix loop of parseExpression. -/
def parseInfixLoop : Nat → Nat → Expr → PState → Option Expr × PState
  | 0, _, left, p => (some left, p)
  | fuel + 1, prec, left, p =>
    if p.peek.ttype = .NEWLINE || p.peek.ttype = .EOF || !(prec < peekPrecedence p) then
      (some left, p)
    else
      match p.peek.ttype with
      | .PLUS | .MINUS | .MULTIPLY | .DIVIDE | .MODULO
      | .GT | .LT | .GTE | .LTE | .AND | .OR | .IS =>
        let p1 := padvance p
        match parseInfixExpression fuel left p1 with
        | (none, p2) => (none, p2)
        | (some e, p2) => parseInfixLoop fuel prec e p2
      | .LPAREN =>
        let p1 := padvance p
        match parseCallExpression fuel left p1 with
        | (none, p2) => (none, p2)
        | (some e, p2) => parseInfixLoop fuel prec e p2
      | .DOT =>
        let p1 := padvance p
        match parseMemberExpression fuel left p1 with
        | (none, p2) => (none, p2)
        | (some e, p2) => parseInfixLoop fuel prec e p2
      | .LBRACKET =>
        let p1 := padvance p
        match parseIndexExpression fuel left p1 with
        | (none, p2) => (none, p2)
        | (some e, p2) => parseInfixLoop fuel prec e p2
      | .ASSIGN_MUT =>
        let p1 := padvance p
        match parseAssignmentExpression fuel left p1 with
        | (none, p2) => (none, p2)
        | (some e, p2) => parseInfixLoop fuel prec e p2
      | _ => (some left, p)
termination_by structural fuel => fuel

/-- parseIdentifier from parser.go, including the struct-literal
heuristic: an identifier whose first character is uppercase and whose peek
token is a left brace parses as a struct literal. -/
def parseIdentExpr : Nat → PState → Option Expr × PState
  | 0, p => (none, p)
  | fuel + 1, p =>
    let name := p.cur.literal
    if p.peek.ttype = .LBRACE then
      if name.length > 0 && name.front ≥ 'A' && name.front ≤ 'Z' then
        parseStructLiteralBody fuel name (padvance p)
      else
        (some (.ident name), p)
    else
      (some (.ident name), p)
termination_by structural fuel => fuel

/-- parseStructLiteralBody from parser.go (entered with current on the
left brace). -/
def parseStructLiteralBody : Nat → String → PState → Option Expr × PState
  | 0, _, p => (none, p)
  | fuel + 1, name, p =>
    parseStructLiteralFields fuel name [] (skipNewlinesP fuel (padvance p))
termination_by structural fuel => fuel

/-- The field loop of parseStructLiteralBody. -/
def parseStructLiteralFields : Nat → String → List (String × Expr) → PState →
    Option Expr × PState
  | 0, _, _, p => (none, p)
  | fuel + 1, name, acc, p =>
    if p.cur.ttype = .RBRACE || p.cur.ttype = .EOF then
      (some (.structLit name acc.reverse), p)
    else
      let fieldName := p.cur.literal
      match expectPeek p .COLON with
      | (false, p1) => (none, p1)
      | (true, p1) =>
        let p2 := padvance p1
        match parseExpression fuel LOWEST p2 with
        | (none, p3) => (none, p3)
        | (some v, p3) =>
          let p4 := padvance p3
          let p5 :=
            if p4.cur.ttype = .COMMA || p4.cur.ttype = .NEWLINE then padvance p4 else p4
          parseStructLiteralFields fuel name ((fieldName, v) :: acc)
            (skipNewlinesP fuel p5)
termination_by structural fuel => fuel

/-- parsePrefixExpression from parser.go. -/
def parsePrefixExpression : Nat → PState → Option Expr × PState
  | 0, p => (none, p)
  | fuel + 1, p =>
    let op := p.cur.literal
    let p1 := padvance p
    match parseExpression fuel PREFIX_PREC p1 with
    | (none, p2) => (none, p2)
    | (some right, p2) => (some (.prefixE op right), p2)
termination_by structural fuel => fuel

/-- parseInfixExpression from parser.go (entered with current on the
operator). -/
def parseInfixExpression : Nat → Expr → PState → Option Expr × PState
  | 0, _, p => (none, p)
  | fuel + 1, left, p =>
    let op := p.cur.literal
    let prec := curPrecedence p
    let p1 := padvance p
    match parseExpression fuel prec p1 with
    | (none, p2) => (none, p2)
    | (some right, p2) => (some (.infixE left op right), p2)
termination_by structural fuel => fuel

/-- parseAssignmentExpression from parser.go: the left side must be a
bare identifier. -/
def parseAssignmentExpression : Nat → Expr → PState → Option Expr × PState
  | 0, _, p => (none, p)
  | fuel + 1, left, p =>
    match left with
    | .ident name =>
      let p1 := padvance p
      match parseExpression fuel LOWEST p1 with
      | (none, p2) => (none, p2)
      | (some v, p2) => (some (.assignE name v), p2)
    | _ =>
      (none, { p with errors := p.errors ++
        ["line " ++ toString p.cur.line ++ ": left side of == must be an identifier"] })
termination_by structural fuel => fuel

/-- parseGroupedExpression from parser.go. -/
def parseGroupedExpression : Nat → PState → Option Expr × PState
  | 0, p => (none, p)
  | fuel + 1, p =>
    let p1 := padvance p
    match parseExpression fuel LOWEST p1 with
    | (none, p2) => (none, p2)
    | (some e, p2) =>
      match expectPeek p2 .RPAREN with
      | (false, p3) => (none, p3)
      | (true, p3) => (some e, p3)
termination_by structural fuel => fuel

/-- parseListLiteral from parser.go. -/
def parseListLiteral : Nat → PState → Option Expr × PState
  | 0, p => (none, p)
  | fuel + 1, p =>
    match parseExpressionList fuel .RBRACKET p with
    | (none, p1) => (none, p1)
    | (some elems, p1) => (some (.listLit elems), p1)
termination_by structural fuel => fuel

/-- parseExpressionList from parser.go (current on the opening
delimiter). -/
def parseExpressionList : Nat → TokType → PState → Option (List Expr) × PState
  | 0, _, p => (none, p)
  | fuel + 1, endTok, p =>
    if p.peek.ttype = endTok then (some [], padvance p)
    else
      let p1 := padvance p
      match parseExpression fuel LOWEST p1 with
      | (none, p2) => (none, p2)
      | (some first, p2) => parseExpressionListRest fuel endTok [first] p2
termination_by structural fuel => fuel

/-- The comma loop of parseExpressionList. -/
def parseExpressionListRest : Nat → TokType → List Expr → PState →
    Option (List Expr) × PState
  | 0, _, _, p => (none, p)
  | fuel + 1, endTok, acc, p =>
    if p.peek.ttype = .COMMA then
      let p1 := padvance (padvance p)
      match parseExpression fuel LOWEST p1 with
      | (none, p2) => (none, p2)
      | (some e, p2) => parseExpressionListRest fuel endTok (e :: acc) p2
    else
      match expectPeek p endTok with
      | (false, p1) => (none, p1)
      | (true, p1) => (some acc.reverse, p1)
termination_by structural fuel => fuel

/-- parseCallExpression from parser.go (current on the left
parenthesis). -/
def parseCallExpression : Nat → Expr → PState → Option Expr × PState
  | 0, _, p => (none, p)
  | fuel + 1, func, p =>
    match parseExpressionList fuel .RPAREN p with
    | (none, p1) => (none, p1)
    | (some args, p1) => (some (.callE func args), p1)
termination_by structural fuel => fuel

/-- parseMemberExpression from parser.go (current on the dot): member
access, special-casing member "with" followed by a left brace into a
with-expression. -/
def parseMemberExpression : Nat → Expr → PState → Option Expr × PState
  | 0, _, p => (none, p)
  | fuel + 1, obj, p =>
    match expectPeek p .IDENT with
    | (false, p1) => (none, p1)
    | (true, p1) =>
      let member := p1.cur.literal
      if member = "with" && p1.peek.ttype = .LBRACE then
        parseWithBody fuel obj (padvance (padvance p1))
      else
        (some (.memberE obj member), p1)
termination_by structural fuel => fuel

/-- parseWithExpression from parser.go (after advancing past "with" and
the left brace). -/
def parseWithBody : Nat → Expr → PState → Option Expr × PState
  | 0, _, p => (none, p)
  | fuel + 1, obj, p =>
    parseWithFields fuel obj [] (skipNewlinesP fuel p)
termination_by structural fuel => fuel

/-- The update loop of parseWithExpression. -/
def parseWithFields : Nat → Expr → List (String × Expr) → PState →
    Option Expr × PState
  | 0, _, _, p => (none, p)
  | fuel + 1, obj, acc, p =>
    if p.cur.ttype = .RBRACE || p.cur.ttype = .EOF then
      (some (.withE obj acc.reverse), p)
    else
      let fieldName := p.cur.literal
      match expectPeek p .COLON with
      | (false, p1) => (none, p1)
      | (true, p1) =>
        let p2 := padvance p1
        match parseExpression fuel LOWEST p2 with
        | (none, p3) => (none, p3)
        | (some v, p3) =>
          let p4 := padvance p3
          let p5 :=
            if p4.cur.ttype = .COMMA || p4.cur.ttype = .NEWLINE then padvance p4 else p4
          parseWithFields fuel obj ((fieldName, v) :: acc) (skipNewlinesP fuel p5)
termination_by structural fuel => fuel

/-- parseIndexExpression from parser.go (current on the left bracket). -/
def parseIndexExpression : Nat → Expr → PState → Option Expr × PState
  | 0, _, p => (none, p)
  | fuel + 1, left, p =>
    let p1 := padvance p
    match parseExpression fuel LOWEST p1 with
    | (none, p2) => (none, p2)
    | (some idx, p2) =>
      match expectPeek p2 .RBRACKET with
      | (false, p3) => (none, p3)
      | (true, p3) => (some (.indexE left idx), p3)
termination_by structural fuel => fuel

end

/-- parseImportStatement from parser.go. -/
def parseImportStatement (fuel : Nat) (p : PState) : Option Stmt × PState :=
  let p1 := padvance p
  let rec go : Nat → List String → PState → List String × PState
    | 0, acc, q => (acc.reverse, q)
    | fuel2 + 1, acc, q =>
      if q.peek.ttype = .DOT then
        let q1 := padvance (padvance q)
        go fuel2 (q1.cur.literal :: acc) q1
      else (acc.reverse, q)
  let (path, p2) := go fuel [p1.cur.literal] p1
  (some (.importStmt path), p2)

/-- parseDefStatement from parser.go. -/
def parseDefStatement (fuel : Nat) (p : PState) : Option Stmt × PState :=
  match expectPeek p .IDENT with
  | (false, p1) => (none, p1)
  | (true, p1) =>
    let name := p1.cur.literal
    let (typeHint, p2) :=
      if p1.peek.ttype = .COLON then
        let q := padvance (padvance p1)
        let (ta, q1) := parseTypeAnn fuel q
        (some ta, q1)
      else (none, p1)
    match expectPeek p2 .ASSIGN with
    | (false, p3) => (none, p3)
    | (true, p3) =>
      let p4 := padvance p3
      match parseExpression fuel LOWEST p4 with
      | (none, p5) => (none, p5)
      | (some v, p5) => (some (.defStmt name typeHint v), p5)

/-- parseReturnStatement from parser.go. -/
def parseReturnStatement (fuel : Nat) (p : PState) : Option Stmt × PState :=
  let p1 := padvance p
  if p1.cur.ttype = .NEWLINE || p1.cur.ttype = .RBRACE || p1.cur.ttype = .EOF then
    (some (.returnStmt none), p1)
  else
    match parseExpression fuel LOWEST p1 with
    | (none, p2) => (none, p2)
    | (some v, p2) => (some (.returnStmt (some v)), p2)

/-- parseStatement from parser.go: keyword dispatch, falling through to
an expression statement.  The fun, struct, extend, if, while, for and
match statement parsers are omitted from the embedding (no claim
exercises them); their keywords produce no statement here. -/
def parseStatement (fuel : Nat) (p : PState) : Option Stmt × PState :=
  match p.cur.ttype with
  | .DEF => parseDefStatement fuel p
  | .RETURN => parseReturnStatement fuel p
  | .BREAK => (some .breakStmt, p)
  | .CONTINUE => (some .continueStmt, p)
  | .IMPORT => parseImportStatement fuel p
  | .FUN | .STRUCT | .EXTEND | .IF | .WHILE | .FOR | .MATCH => (none, p)
  | _ =>
    match parseExpression fuel LOWEST p with
    | (none, p1) => (none, p1)
    | (some e, p1) => (some (.exprStmt e), p1)

/-- ParseProgram from parser.go: skip newlines, parse a statement, advance
and repeat until EOF; failed statements contribute nothing beyond their
diagnostics. -/
def ParseProgram : Nat → PState → List Stmt × PState
  | 0, p => ([], p)
  | fuel + 1, p =>
    let p1 := skipNewlinesP fuel p
    if p1.cur.ttype = .EOF then ([], p1)
    else
      match parseStatement fuel p1 with
      | (none, p2) => ParseProgram fuel (padvance p2)
      | (some s, p2) =>
        let (rest, p3) := ParseProgram fuel (padvance p2)
        (s :: rest, p3)

/-- Parse a whole source string through the embedded lexer and parser. -/
def parseSource (source : String) : List Stmt × PState :=
  let toks := lexSource source
  ParseProgram (toks.length + source.length + 2) (initParser toks)

mutual

/-- TypeAnnotation.String from ast.go. -/
def typeAnnString : TypeAnn → String
  | .mk name params =>
    match params with
    | [] => name
    | _ => name ++ "[" ++ joinComma (typeAnnStrings params) ++ "]"
termination_by structural ta => ta

/-- Rendering of each type parameter. -/
def typeAnnStrings : List TypeAnn → List String
  | [] => []
  | ta :: rest => typeAnnString ta :: typeAnnStrings rest
termination_by structural l => l

end

/-- Rendering of parameter and struct-field lists with optional type
hints. -/
def paramStrings : List (String × Option TypeAnn) → List String
  | [] => []
  | (n, ta) :: rest =>
    (n ++ (match ta with | some t => ": " ++ typeAnnString t | none => "")) ::
      paramStrings rest

mutual

/-- String() of the Expression nodes of ast.go: infix expressions are
parenthesized, prefix expressions tightly parenthesized, index
expressions parenthesized, and literals render their token literal.
BlockStatement.String is rendered inline where a node holds a block. -/
def exprString : Expr → String
  | .intLit _ lit => lit
  | .strLit s => "\"" ++ s ++ "\""
  | .boolLit b => if b then "true" else "false"
  | .ident name => name
  | .prefixE op right => "(" ++ op ++ exprString right ++ ")"
  | .infixE left op right =>
    "(" ++ exprString left ++ " " ++ op ++ " " ++ exprString right ++ ")"
  | .assignE name value => name ++ " == " ++ exprString value
  | .ifE cond cons alt =>
    "if " ++ exprString cond ++ " \x7b " ++ stmtStringCat cons ++ " \x7d" ++
      (match alt with
       | some altBlock => " else \x7b " ++ stmtStringCat altBlock ++ " \x7d"
       | none => "")
  | .funcLit params body =>
    "\x7b " ++ joinComma params ++ " -> " ++ exprString body ++ " \x7d"
  | .callE func args =>
    exprString func ++ "(" ++ joinComma (exprStringList args) ++ ")"
  | .memberE obj member => exprString obj ++ "." ++ member
  | .indexE left idx => "(" ++ exprString left ++ "[" ++ exprString idx ++ "])"
  | .listLit elems => "[" ++ joinComma (exprStringList elems) ++ "]"
  | .mapLit pairs =>
    "\x7b" ++ joinComma (exprPairStrings pairs) ++ "\x7d"
  | .structLit name fields =>
    name ++ " \x7b " ++ joinComma (namedExprStrings fields) ++ " \x7d"
  | .withE obj updates =>
    exprString obj ++ ".with \x7b " ++ joinComma (namedExprStrings updates) ++ " \x7d"
  | .optionE isSome value =>
    if isSome then
      "Some(" ++ (match value with | some v => exprString v | none => "") ++ ")"
    else "None"
  | .resultE isOk value =>
    (if isOk then "Ok(" else "Error(") ++ exprString value ++ ")"
  | .mutableE typeHint value =>
    "Mutable" ++
      (match typeHint with
       | some ta => "[" ++ typeAnnString ta ++ "]"
       | none => "") ++
      "(" ++ exprString value ++ ")"
termination_by structural e => e

/-- Rendering of each expression of a list. -/
def exprStringList : List Expr → List String
  | [] => []
  | e :: rest => exprString e :: exprStringList rest
termination_by structural l => l

/-- Rendering of map-literal pairs. -/
def exprPairStrings : List (Expr × Expr) → List String
  | [] => []
  | (k, v) :: rest => (exprString k ++ ": " ++ exprString v) :: exprPairStrings rest
termination_by structural l => l

/-- Rendering of name-to-expression pairs (struct literals, with
updates). -/
def namedExprStrings : List (String × Expr) → List String
  | [] => []
  | (k, v) :: rest => (k ++ ": " ++ exprString v) :: namedExprStrings rest
termination_by structural l => l

/-- String() of the Statement nodes of ast.go. -/
def stmtString : Stmt → String
  | .defStmt name typeHint value =>
    "def " ++ name ++
      (match typeHint with
       | some ta => ": " ++ typeAnnString ta
       | none => "") ++
      " = " ++ exprString value
  | .returnStmt value =>
    "return " ++ (match value with | some v => exprString v | none => "")
  | .exprStmt e => exprString e
  | .blockStmt stmts => "\x7b " ++ stmtStringCat stmts ++ " \x7d"
  | .funcStmt name params retType body =>
    -- FunctionStatement.String, inline (shared verbatim with methodStrings)
    "fun " ++ name ++ "(" ++ joinComma (paramStrings params) ++ ")" ++
      (match retType with
       | some ta => " -> " ++ typeAnnString ta
       | none => "") ++
      " \x7b " ++ stmtStringCat body ++ " \x7d"
  | .whileStmt cond body =>
    "while " ++ exprString cond ++ " \x7b " ++ stmtStringCat body ++ " \x7d"
  | .forStmt varName iterable body =>
    "for " ++ varName ++ " in " ++ exprString iterable ++ " \x7b " ++
      stmtStringCat body ++ " \x7d"
  | .breakStmt => "break"
  | .continueStmt => "continue"
  | .structStmt name fields =>
    "struct " ++ name ++ " \x7b " ++ joinComma (paramStrings fields) ++ " \x7d"
  | .extendStmt typeName methods =>
    "extend " ++ typeName ++ " \x7b " ++ methodStrings methods ++ "\x7d"
  | .importStmt path => "import " ++ String.intercalate "." path
termination_by structural s => s

/-- Concatenation of the statement renderings of a block. -/
def stmtStringCat : List Stmt → String
  | [] => ""
  | s :: rest => stmtString s ++ stmtStringCat rest
termination_by structural l => l

/-- Rendering of extend-block methods. -/
def methodStrings :
    List (String × List (String × Option TypeAnn) × Option TypeAnn × List Stmt) → String
  | [] => ""
  | (name, params, retType, body) :: rest =>
    "fun " ++ name ++ "(" ++ joinComma (paramStrings params) ++ ")" ++
      (match retType with
       | some ta => " -> " ++ typeAnnString ta
       | none => "") ++
      " \x7b " ++ stmtStringCat body ++ " \x7d" ++ " " ++ methodStrings rest
termination_by structural l => l

end

/-- The interpreter's startup state: one empty global frame at address 0
and empty registries (the built-in registrations play no part in the
claims below). -/
def initialState : St := ⟨[⟨[], none⟩], [], [], [], ""⟩

/-- A startup state whose global frame binds one name. -/
def bindOneState (name : String) (v : Value) : St :=
  ⟨[⟨[(name, v)], none⟩], [], [], [], ""⟩

/-- The then-wrapping of evalResultMethod: a Result produced by the
function is returned as-is, any other value is wrapped in Ok. -/
def resultThenWrap : Value → Value
  | .resultV isOk v em ei emsg => .resultV isOk v em ei emsg
  | v => .resultV true v "" "" ""

/-- The control values on which evalBlockStatement stops: Return, Break
and Continue (an ErrorValue is not among them). -/
def isBlockControlSignal : Value → Bool
  | .returnV _ => true
  | .breakV => true
  | .continueV => true
  | _ => false

/-- The premise of claim C3: some function statement of the program has a
declared return-type annotation of the form Mutable[...]. -/
def declaresMutableReturn (prog : List Stmt) : Bool :=
  prog.any (fun s =>
    match s with
    | .funcStmt _ _ (some ta) _ => ta.name = "Mutable"
    | _ => false)

/-- MoonShot source of the C1 failing input. -/
def progC1 : List Stmt :=
  [ .structStmt "User" [("age", some (.mk "Integer" []))],
    .extendStmt "User"
      [("validate", [], some (.mk "Result" [.mk "User" [], .mk "String" []]),
        [.returnStmt (some (.resultE false (.strLit "Must be 18+")))])],
    .defStmt "u" none (.structLit "User" [("age", .intLit 16 "16")]),
    .exprStmt (.callE (.memberE (.ident "u") "validate") []) ]

/-- C1 source of the unwrapOr counterexample program. -/
def progC2a : List Stmt :=
  [ .defStmt "r" none (.resultE false (.strLit "boom")),
    .exprStmt (.callE (.memberE (.ident "r") "unwrapOr") [.intLit 42 "42"]) ]

/-- C2 source of the extension-on-Ok counterexample program. -/
def progC2b : List Stmt :=
  [ .structStmt "User" [("age", some (.mk "Integer" []))],
    .extendStmt "User" [("isAdult", [], some (.mk "Boolean" []),
      [.returnStmt (some (.boolLit true))])],
    .defStmt "r" none (.resultE true (.structLit "User" [("age", .intLit 30 "30")])),
    .exprStmt (.callE (.memberE (.ident "r") "isAdult") []) ]

/-- The C3 failing input: fun f() -> Mutable[Integer] { }. -/
def progC3 : List Stmt :=
  [.funcStmt "f" [] (some (.mk "Mutable" [.mk "Integer" []])) []]

/-- The C4 counterexample block body. -/
def progC4 : List Stmt := [.exprStmt (.ident "zzz"), .exprStmt (.intLit 42 "42")]

/-- C1: evaluating u.validate(), where the extension method validate on
User returns Error("Must be 18+"), yields the raw Result whose ErrorValue
has empty method and input fields — the evaluator never re-wraps a non-ok
Result from an extension-method call into an enriched ErrorValue (errors.go's
EnrichError, whose guard keeps already-set fields, is never invoked by the
evaluator); the claim expects ErrorValue{method: "validate",
input: "User{age: 16}", message: "Must be 18+"}. -/
theorem C1_extension_call_not_enriched :
    (evalProgram 50 progC1 0 initialState).map Prod.fst =
        some (.resultV false .nullV "" "" "Must be 18+") ∧
      (∀ m i msg, (evalProgram 50 progC1 0 initialState).map Prod.fst ≠
        some (.errorV m i msg)) ∧
      (∀ m i msg mth inp, EnrichError (.errorV m i msg) mth (some inp) =
        .errorV (if m = "" then mth else m)
          (if i = "" then valueString inp else i) msg) := by
  refine ⟨rfl, ?_, fun m i msg mth inp => rfl⟩
  intro m i msg h
  rw [show (evalProgram 50 progC1 0 initialState).map Prod.fst =
      some (.resultV false .nullV "" "" "Must be 18+") from rfl] at h
  simp at h

/-- C2 counterexample: calling unwrapOr on a Result that is already an
Error returns the default argument 42, not that same Result (the method is
invoked); and calling the User extension method isAdult on Ok(User{age: 30})
fails with "undefined method isAdult on Result" instead of unwrapping the
receiver to the User before extension lookup. -/
theorem C2_result_receiver_counterexample :
    (evalProgram 80 progC2a 0 initialState).map Prod.fst = some (.intV 42) ∧
      (∀ isOk v em ei emsg,
        (evalProgram 80 progC2a 0 initialState).map Prod.fst ≠
          some (.resultV isOk v em ei emsg)) ∧
      (evalProgram 80 progC2b 0 initialState).map Prod.fst =
        some (.errorV "" "" "undefined method isAdult on Result") := by
  refine ⟨rfl, ?_, rfl⟩
  intro isOk v em ei emsg h
  rw [show (evalProgram 80 progC2a 0 initialState).map Prod.fst =
      some (.intV 42) from rfl] at h
  simp at h

/-- C2 as amended: a Result receiver is dispatched as a Result without
unwrapping — then and map short-circuit on an Error receiver, returning
that same Result without invoking the function argument, while unwrap and
unwrapOr operate on the Error (the stored ErrorValue, resp. the default);
for a method outside the built-in four, extension lookup uses the type
name Result (not the unwrapped Ok payload) and fails with an
undefined-method error when no Result extension is registered, whether the
receiver is Ok or Error. -/
theorem C2_result_receiver_dispatch :
    (∀ (fuel : Nat) (v f : Value) (em ei emsg : String) (env : Nat) (st : St),
      evalResultMethod (fuel + 1) (false, v, em, ei, emsg) "then" [f] env st =
          some (some (.resultV false v em ei emsg, st)) ∧
        evalResultMethod (fuel + 1) (false, v, em, ei, emsg) "map" [f] env st =
          some (some (.resultV false v em ei emsg, st))) ∧
      (∀ (fuel : Nat) (v d : Value) (em ei emsg : String) (env : Nat) (st : St),
        evalResultMethod (fuel + 1) (false, v, em, ei, emsg) "unwrap" [] env st =
            some (some (.errorV em ei emsg, st)) ∧
          evalResultMethod (fuel + 1) (false, v, em, ei, emsg) "unwrapOr" [d] env st =
            some (some (d, st))) ∧
      (∀ (fuel : Nat) (isOk : Bool) (v : Value) (em ei emsg : String),
        evalMethodCall (fuel + 4) (.ident "r") "isAdult" [] 0
            (bindOneState "r" (.resultV isOk v em ei emsg)) =
          some (.errorV "" "" "undefined method isAdult on Result",
            bindOneState "r" (.resultV isOk v em ei emsg))) := by
  refine ⟨fun fuel v f em ei emsg env st => ⟨rfl, rfl⟩,
    fun fuel v d em ei emsg env st => ⟨rfl, rfl⟩,
    fun fuel isOk v em ei emsg => rfl⟩

/-- C3: the type checker accepts the program fun f() -> Mutable[Integer] { }
without any diagnostic, although its declared return-type annotation is
Mutable[...]; no check against Mutable return annotations exists in
checker.go. -/
theorem C3_check_accepts_mutable_return :
    TypeChecker.Check 30 progC3 = some none ∧
      declaresMutableReturn progC3 = true := ⟨rfl, rfl⟩

/-- C4 counterexample: in the block { zzz; 42 } the first statement
evaluates to ErrorValue "undefined: zzz", yet the block continues and
returns 42 — an Error-typed value does not short-circuit the remaining
statements of a block statement. -/
theorem C4_error_does_not_shortcircuit_block :
    (evalStmt 10 (.exprStmt (.ident "zzz")) 0 initialState).map Prod.fst =
        some (.errorV "" "" "undefined: zzz") ∧
      (evalBlockStatement 10 progC4 0 initialState).map Prod.fst =
        some (.intV 42) := ⟨rfl, rfl⟩

/-- C4 as amended: at any position of a block statement's statement list
(any running value r0 and any state st reachable there), if the next
statement evaluates to a Return, Break or Continue value, the block stops:
the value is returned unchanged, and the remaining statements are not
evaluated (the result does not depend on them). -/
theorem C4_block_signal_shortcircuit :
    ∀ (fuel : Nat) (s : Stmt) (l2 : List Stmt) (r0 v : Value) (env : Nat)
      (st st1 : St),
      evalStmt fuel s env st = some (v, st1) →
      isBlockControlSignal v = true →
      evalBlockLoop (fuel + 1) (s :: l2) r0 env st = some (v, st1) ∧
        ∀ l3, evalBlockLoop (fuel + 1) (s :: l2) r0 env st =
          evalBlockLoop (fuel + 1) (s :: l3) r0 env st := by
  intro fuel s l2 r0 v env st st1 hev hsig
  have hstep : ∀ l : List Stmt,
      evalBlockLoop (fuel + 1) (s :: l) r0 env st = some (v, st1) := by
    intro l
    rw [evalBlockLoop, hev]
    cases v <;> simp_all [isBlockControlSignal]
  exact ⟨hstep l2, fun l3 => by rw [hstep l2, hstep l3]⟩

/-- Closed instance of C4_block_signal_shortcircuit: a return statement in
first position ends the block with the Return value regardless of the rest
of the block. -/
theorem C4_block_signal_shortcircuit_witness :
    evalBlockLoop 11 [.returnStmt (some (.intLit 7 "7")), .exprStmt (.ident "zzz")]
        .nullV 0 initialState = some (.returnV (.intV 7), initialState) :=
  (C4_block_signal_shortcircuit 10 (.returnStmt (some (.intLit 7 "7")))
    [.exprStmt (.ident "zzz")] .nullV (.returnV (.intV 7)) 0 initialState
    initialState rfl rfl).1

/-- C5: the Result methods — then returns the receiver itself on an Error;
on Ok(x) it applies the function and returns its result as-is when that
result is a Result, otherwise wrapped in Ok; map returns the receiver on
an Error and always Ok-wraps the function's result on Ok(x); unwrap
returns the stored ErrorValue on an Error and the inner value on Ok;
unwrapOr returns the default on an Error and the inner value on Ok. -/
theorem C5_result_method_semantics :
    (∀ (fuel : Nat) (v f : Value) (em ei emsg : String) (env : Nat) (st : St),
      evalResultMethod (fuel + 1) (false, v, em, ei, emsg) "then" [f] env st =
        some (some (.resultV false v em ei emsg, st))) ∧
      (∀ (fuel : Nat) (x y : Value) (em ei emsg name : String)
        (params : List String) (body : List Stmt) (lb : Option Expr)
        (fenv : Nat) (isl : Bool) (env : Nat) (st st1 : St),
        applyFunction fuel (.funcV name params body lb fenv isl) [x] env st =
          some (y, st1) →
        evalResultMethod (fuel + 1) (true, x, em, ei, emsg) "then"
            [.funcV name params body lb fenv isl] env st =
          some (some (resultThenWrap y, st1))) ∧
      (∀ (fuel : Nat) (v f : Value) (em ei emsg : String) (env : Nat) (st : St),
        evalResultMethod (fuel + 1) (false, v, em, ei, emsg) "map" [f] env st =
          some (some (.resultV false v em ei emsg, st))) ∧
      (∀ (fuel : Nat) (x y : Value) (em ei emsg name : String)
        (params : List String) (body : List Stmt) (lb : Option Expr)
        (fenv : Nat) (isl : Bool) (env : Nat) (st st1 : St),
        applyFunction fuel (.funcV name params body lb fenv isl) [x] env st =
          some (y, st1) →
        evalResultMethod (fuel + 1) (true, x, em, ei, emsg) "map"
            [.funcV name params body lb fenv isl] env st =
          some (some (.resultV true y "" "" "", st1))) ∧
      (∀ (fuel : Nat) (x v : Value) (em ei emsg : String) (env : Nat) (st : St),
        evalResultMethod (fuel + 1) (false, v, em, ei, emsg) "unwrap" [] env st =
            some (some (.errorV em ei emsg, st)) ∧
          evalResultMethod (fuel + 1) (true, x, em, ei, emsg) "unwrap" [] env st =
            some (some (x, st))) ∧
      (∀ (fuel : Nat) (x v d : Value) (em ei emsg : String) (env : Nat) (st : St),
        evalResultMethod (fuel + 1) (false, v, em, ei, emsg) "unwrapOr" [d] env st =
            some (some (d, st)) ∧
          evalResultMethod (fuel + 1) (true, x, em, ei, emsg) "unwrapOr" [d] env st =
            some (some (x, st))) := by
  refine ⟨fun fuel v f em ei emsg env st => rfl, ?_, fun fuel v f em ei emsg env st => rfl,
    ?_, fun fuel x v em ei emsg env st => ⟨rfl, rfl⟩,
    fun fuel x v d em ei emsg env st => ⟨rfl, rfl⟩⟩
  · intro fuel x y em ei emsg name params body lb fenv isl env st st1 happ
    rw [evalResultMethod]
    simp only [happ]
    cases y <;> rfl
  · intro fuel x y em ei emsg name params body lb fenv isl env st st1 happ
    rw [evalResultMethod]
    simp only [happ]
    rfl

/-- Closed instance of C5_result_method_semantics: Ok(5).then(id-lambda)
is Ok(5) (the lambda's plain result is wrapped back in Ok). -/
theorem C5_result_method_semantics_witness :
    evalResultMethod 11 (true, .intV 5, "", "", "") "then"
        [.funcV "" ["z"] [] (some (.ident "z")) 0 true] 0 initialState =
      some (some (.resultV true (.intV 5) "" "" "",
        ⟨[⟨[], none⟩, ⟨[("z", .intV 5)], some 0⟩], [], [], [], ""⟩)) :=
  C5_result_method_semantics.2.1 10 (.intV 5) (.intV 5) "" "" "" "" ["z"] []
    (some (.ident "z")) 0 true 0 initialState
    ⟨[⟨[], none⟩, ⟨[("z", .intV 5)], some 0⟩], [], [], [], ""⟩ rfl



/-- C6: L.append(v) builds a fresh list one longer than L whose last
element is v and whose first len(L) elements are exactly L's elements; the
receiver's own element sequence is untouched (values are persistent in the
embedding, mirroring the copy the source performs), and the append builtin
method dispatches to exactly this operation. -/
theorem C6_append_persistent :
    ∀ (elems : List Value) (v : Value),
      ListValue.Append elems v = elems ++ [v] ∧
        (ListValue.Append elems v).length = elems.length + 1 ∧
        (ListValue.Append elems v).getLast? = some v ∧
        (ListValue.Append elems v).take elems.length = elems ∧
        ∀ (fuel env : Nat) (st : St),
          evalListMethod (fuel + 1) elems "append" [v] env st =
            some (some (.listV (ListValue.Append elems v), st)) := by
  intro elems v
  refine ⟨rfl, by simp [ListValue.Append], ?_, ?_, fun fuel env st => rfl⟩
  · simp [ListValue.Append, List.getLast?_concat]
  · simp [ListValue.Append, List.take_left]

/-- C7: integer division and modulo error exactly on a zero divisor: for
int64 operands, a / b and a % b are the ErrorValue "division by zero" if
and only if b = 0, and for b nonzero they are the wrapped int64 truncated
quotient and remainder (the error branch is not taken). -/
theorem C7_division_by_zero_iff :
    ∀ (a b : Int), -int64Half ≤ a → a < int64Half → -int64Half ≤ b → b < int64Half →
      (isError (evalIntegerInfixExpression "/" a b) = true ↔ b = 0) ∧
        (isError (evalIntegerInfixExpression "%" a b) = true ↔ b = 0) ∧
        (b = 0 →
          evalIntegerInfixExpression "/" a b = .errorV "" "" "division by zero" ∧
            evalIntegerInfixExpression "%" a b = .errorV "" "" "division by zero") ∧
        (b ≠ 0 →
          evalIntegerInfixExpression "/" a b = .intV (i64div a b) ∧
            evalIntegerInfixExpression "%" a b = .intV (i64mod a b)) := by
  intro a b _ _ _ _
  by_cases h : b = 0 <;> simp [evalIntegerInfixExpression, isError, h]

/-- Closed instance of C7_division_by_zero_iff: 7 / 2 computes the
truncated quotient, 7 % 0 is the division-by-zero error. -/
theorem C7_division_by_zero_iff_witness :
    evalIntegerInfixExpression "/" 7 2 = .intV (i64div 7 2) ∧
      evalIntegerInfixExpression "%" 7 0 = .errorV "" "" "division by zero" :=
  ⟨((C7_division_by_zero_iff 7 2 (by decide) (by decide) (by decide)
      (by decide)).2.2.2 (by decide)).1,
    ((C7_division_by_zero_iff 7 0 (by decide) (by decide) (by decide)
      (by decide)).2.2.1 rfl).2⟩

/-- C8: the binary-operator precedence table maps the operators to the
stated levels, the levels are strictly increasing in the stated order
(assignment lowest, then or, and, is, comparison, sum, product, prefix,
call/member, index highest), and parsing "1 + 2 * 3" through the lexer and
Pratt parser yields the tree whose re-stringification is "(1 + (2 * 3))",
not "((1 + 2) * 3)". -/
theorem C8_precedence_order :
    precedences .ASSIGN_MUT = some ASSIGN_PREC ∧ precedences .OR = some OR_PREC ∧
      precedences .AND = some AND_PREC ∧ precedences .IS = some IS_PREC ∧
      precedences .GT = some COMPARE_PREC ∧ precedences .LT = some COMPARE_PREC ∧
      precedences .GTE = some COMPARE_PREC ∧ precedences .LTE = some COMPARE_PREC ∧
      precedences .PLUS = some SUM_PREC ∧ precedences .MINUS = some SUM_PREC ∧
      precedences .MULTIPLY = some PRODUCT_PREC ∧
      precedences .DIVIDE = some PRODUCT_PREC ∧
      precedences .MODULO = some PRODUCT_PREC ∧ precedences .LPAREN = some CALL_PREC ∧
      precedences .DOT = some CALL_PREC ∧ precedences .LBRACKET = some INDEX_PREC ∧
      (ASSIGN_PREC < OR_PREC ∧ OR_PREC < AND_PREC ∧ AND_PREC < IS_PREC ∧
        IS_PREC < COMPARE_PREC ∧ COMPARE_PREC < SUM_PREC ∧ SUM_PREC < PRODUCT_PREC ∧
        PRODUCT_PREC < PREFIX_PREC ∧ PREFIX_PREC < CALL_PREC ∧
        CALL_PREC < INDEX_PREC) ∧
      (parseSource "1 + 2 * 3").1 =
        [.exprStmt (.infixE (.intLit 1 "1") "+"
          (.infixE (.intLit 2 "2") "*" (.intLit 3 "3")))] ∧
      exprString (.infixE (.intLit 1 "1") "+"
          (.infixE (.intLit 2 "2") "*" (.intLit 3 "3"))) = "(1 + (2 * 3))" ∧
      "(1 + (2 * 3))" ≠ "((1 + 2) * 3)" :=
  ⟨rfl, rfl, rfl, rfl, rfl, rfl, rfl, rfl, rfl, rfl, rfl, rfl, rfl, rfl, rfl, rfl,
    ⟨by decide, by decide, by decide, by decide, by decide, by decide, by decide,
      by decide, by decide⟩, rfl, rfl, by decide⟩

/-- C9 counterexample: for import a.b.c the evaluator passes only the
first segment to the loader, so the file opened is base/a.moon, while the
claimed joining of all segments gives base/a/b/c.moon — a different
file. -/
theorem C9_import_first_segment_counterexample :
    importLoadedFile "base" ["a", "b", "c"] = "base/a.moon" ∧
      claimImportResolvedFile "base" ["a", "b", "c"] = "base/a/b/c.moon" ∧
      importLoadedFile "base" ["a", "b", "c"] ≠
        claimImportResolvedFile "base" ["a", "b", "c"] :=
  ⟨rfl, rfl, by decide⟩

/-- C9 as amended: an import statement loads the module named by its FIRST
path segment only — the loaded file is resolvePath of that segment, and
the segments after the first do not influence it; resolvePath itself does
join the dot-separated components of its argument with the separator and
append .moon (module.go's own example "utils.math" included). -/
theorem C9_import_resolution_amended :
    (∀ (base first : String) (rest : List String),
      importLoadedFile base (first :: rest) = resolvePath base first ∧
        importLoadedFile base (first :: rest) = importLoadedFile base [first]) ∧
      resolvePath "base" "utils.math" = "base/utils/math.moon" :=
  ⟨fun _ _ _ => ⟨rfl, rfl⟩, rfl⟩

/-- C10: an absent map key gives None both through the index expression
m[k] and through m.get(k); an out-of-range list index gives None through
L.get(i) but the ErrorValue "index out of bounds" through the index
expression L[i]. -/
theorem C10_get_vs_index_semantics :
    (∀ (fuel : Nat) (pairs : List (String × Value)) (k : String),
      assocGet pairs k = none →
      evalExpr (fuel + 3) (.indexE (.ident "m") (.strLit k)) 0
          (bindOneState "m" (.mapV pairs)) =
        some (.optionV false .nullV, bindOneState "m" (.mapV pairs))) ∧
      (∀ (fuel : Nat) (pairs : List (String × Value)) (k : String),
        assocGet pairs k = none →
        evalExpr (fuel + 5) (.callE (.memberE (.ident "m") "get") [.strLit k]) 0
            (bindOneState "m" (.mapV pairs)) =
          some (.optionV false .nullV, bindOneState "m" (.mapV pairs))) ∧
      (∀ (fuel : Nat) (elems : List Value) (i : Int) (lit : String),
        (i < 0 || i ≥ Int.ofNat elems.length) = true →
        evalExpr (fuel + 5) (.callE (.memberE (.ident "L") "get") [.intLit i lit]) 0
            (bindOneState "L" (.listV elems)) =
          some (.optionV false .nullV, bindOneState "L" (.listV elems))) ∧
      (∀ (fuel : Nat) (elems : List Value) (i : Int) (lit : String),
        (i < 0 || i ≥ Int.ofNat elems.length) = true →
        evalExpr (fuel + 3) (.indexE (.ident "L") (.intLit i lit)) 0
            (bindOneState "L" (.listV elems)) =
          some (.errorV "" "" "index out of bounds", bindOneState "L" (.listV elems))) := by
  refine ⟨?_, ?_, ?_, ?_⟩
  · intro fuel pairs k h
    simp [evalExpr, evalIndexExpression, evalIdentifier, envGet, envGetAux,
      bindOneState, assocGet, isError, UnwrapValue, h]
  · intro fuel pairs k h
    simp [evalExpr, evalCallExpression, evalMethodCall, evalExpressions,
      evalIdentifier, envGet, envGetAux, bindOneState, assocGet,
      evalBuiltinMethod, evalMapMethod, mapGet, UnwrapValue, h]
  · intro fuel elems i lit h
    simp only [Bool.or_eq_true, decide_eq_true_eq, Int.ofNat_eq_natCast] at h
    simp [evalExpr, evalCallExpression, evalMethodCall, evalExpressions,
      evalIdentifier, envGet, envGetAux, bindOneState, assocGet,
      evalBuiltinMethod, evalListMethod, listGet, UnwrapValue]
    intro h0
    omega
  · intro fuel elems i lit h
    simp only [Bool.or_eq_true, decide_eq_true_eq, Int.ofNat_eq_natCast] at h
    simp [evalExpr, evalIndexExpression, evalIdentifier, envGet, envGetAux,
      bindOneState, assocGet, isError, UnwrapValue]
    intro h0 h1
    exfalso
    omega

/-- Closed instance of C10_get_vs_index_semantics at a one-entry map with
an absent key and a one-element list indexed at 5. -/
theorem C10_get_vs_index_semantics_witness :
    evalExpr 8 (.callE (.memberE (.ident "m") "get") [.strLit "y"]) 0
        (bindOneState "m" (.mapV [("x", .intV 1)])) =
      some (.optionV false .nullV, bindOneState "m" (.mapV [("x", .intV 1)])) ∧
      evalExpr 6 (.indexE (.ident "L") (.intLit 5 "5")) 0
          (bindOneState "L" (.listV [.intV 7])) =
        some (.errorV "" "" "index out of bounds", bindOneState "L" (.listV [.intV 7])) :=
  ⟨C10_get_vs_index_semantics.2.1 3 [("x", .intV 1)] "y" rfl,
    C10_get_vs_index_semantics.2.2.2 3 [.intV 7] 5 "5" (by decide)⟩

end MoonShot
